import Mathlib

/-!
# DepthReaderSample: a shallow embedding of `ADepthReader`

Embedding of `Source/DepthReaderSample/DepthReader.{h,cpp}`.

* `int32` values are `Int` with explicit wrap-around modulo `2 ^ 32` (`wrap32`);
  `size_t` values are `Nat` below `2 ^ 64` (`toSizeT`).
* `float` is a type parameter `F` with an explicit table of the operations the code
  uses (`FloatOps F`).  Every definition of the reader is generic in that table.
  `binary32` is the IEEE 754 single-precision instance (round to nearest, ties to
  even), used wherever a concrete run is evaluated.
* The member variables of `ADepthReader` are the fields of the structure
  `ADepthReader F`; member functions take the object and return the updated one.
* What the engine supplies at a call (fence queries, the mapped staging extents,
  the mapped staging memory, the viewport size) is an explicit argument.
-/

namespace DepthReader

/-! ## Machine integers -/

/-- Reduction of an integer modulo `2 ^ 32` to the `int32` range. -/
def wrap32 (x : Int) : Int := (x + 2 ^ 31) % 2 ^ 32 - 2 ^ 31

/-- The value is representable as an `int32`. -/
def IsInt32 (x : Int) : Prop := -2 ^ 31 ≤ x ∧ x < 2 ^ 31

instance (x : Int) : Decidable (IsInt32 x) := by
  unfold IsInt32; infer_instance

/-- Conversion of an `int32` to the 64-bit unsigned `size_t` (value modulo `2 ^ 64`). -/
def toSizeT (x : Int) : Nat := (x % 2 ^ 64).toNat

/-- The `%` of C++ on `int`: remainder of the division that truncates toward zero. -/
def cmod (a b : Int) : Int := Int.tmod a b

/-- Modelled from the spec: `FMath::Clamp` is an engine template that is not part of the
repository; the spec says the value is clamped to `[Min, Max]`.  The body is that of the engine,
`X < Min ? Min : X < Max ? X : Max`. -/
def Clamp (X Min Max : Int) : Int :=
  if X < Min then Min else if X < Max then X else Max

/-! ## Floating point -/

/-- The `float` operations used by `ADepthReader`. -/
structure FloatOps (F : Type) where
  /-- Conversion `static_cast<float>(n)` for an `int32`, also the implicit conversion in `f * n`. -/
  ofInt : Int → F
  /-- Conversion `static_cast<int>(f)` and the implicit conversion of a `float` argument to `int32`. -/
  toInt : F → Int
  add : F → F → F
  sub : F → F → F
  mul : F → F → F
  div : F → F → F
  /-- The literal `1.0f`. -/
  one : F

/-- IEEE 754 binary32 data: a finite value `(-1)^neg * m * 2^e`, an infinity, or a NaN.
Finite values produced by the operations below are in canonical form: `m < 2 ^ 24`,
`-149 ≤ e ≤ 104`, and `2 ^ 23 ≤ m` unless `e = -149`. -/
inductive F32 where
  | fin (neg : Bool) (m : Nat) (e : Int)
  | inf (neg : Bool)
  | nan
  deriving DecidableEq

namespace F32

/-- Number of binary digits of `n`, by halving at most `fuel` times. -/
def bitsAux : Nat → Nat → Nat
  | 0, _ => 0
  | fuel + 1, n => if n = 0 then 0 else bitsAux fuel (n / 2) + 1

/-- Number of binary digits of `n` (`0` for `0`). -/
def bits (n : Nat) : Nat := bitsAux n n

/-- Rounding of the exact value `(-1)^neg * m * 2^e` to binary32, to nearest with ties to
even, with gradual underflow and overflow to infinity. -/
def round (neg : Bool) (m : Nat) (e : Int) : F32 :=
  if m = 0 then fin neg 0 (-149)
  else
    let top : Int := e + (bits m : Int) - 1
    let q : Int := max (top - 23) (-149)
    if q ≤ e then
      if 104 < q then inf neg else fin neg (m * 2 ^ (e - q).toNat) q
    else
      let s : Nat := (q - e).toNat
      let t : Nat := m / 2 ^ s
      let r : Nat := m % 2 ^ s
      let half : Nat := 2 ^ (s - 1)
      let up : Nat := if half < r ∨ (r = half ∧ t % 2 = 1) then t + 1 else t
      let q2 : Int := if up = 2 ^ 24 then q + 1 else q
      let m2 : Nat := if up = 2 ^ 24 then 2 ^ 23 else up
      if 104 < q2 then inf neg else fin neg m2 q2

/-- The binary32 value nearest to `n * 2^e`. -/
def ofScaled (n : Int) (e : Int) : F32 := round (decide (n < 0)) n.natAbs e

/-- Conversion of an integer to binary32. -/
def ofInt (n : Int) : F32 := ofScaled n 0

/-- Sign change. -/
def neg : F32 → F32
  | fin s m e => fin (!s) m e
  | inf s => inf (!s)
  | nan => nan

/-- The integer `(-1)^s * m`. -/
def signed (s : Bool) (m : Nat) : Int := if s then -(m : Int) else (m : Int)

/-- Addition of binary32 values. -/
def add : F32 → F32 → F32
  | nan, _ => nan
  | _, nan => nan
  | inf a, inf b => if a = b then inf a else nan
  | inf a, fin _ _ _ => inf a
  | fin _ _ _, inf b => inf b
  | fin a m1 e1, fin b m2 e2 =>
    if m1 = 0 ∧ m2 = 0 then fin (a && b) 0 (-149)
    else
      let e : Int := min e1 e2
      let v : Int := signed a m1 * 2 ^ (e1 - e).toNat + signed b m2 * 2 ^ (e2 - e).toNat
      if v = 0 then fin false 0 (-149) else round (decide (v < 0)) v.natAbs e

/-- Subtraction of binary32 values. -/
def sub (x y : F32) : F32 := add x (neg y)

/-- Multiplication of binary32 values. -/
def mul : F32 → F32 → F32
  | nan, _ => nan
  | _, nan => nan
  | inf a, inf b => inf (xor a b)
  | inf a, fin b m _ => if m = 0 then nan else inf (xor a b)
  | fin a m _, inf b => if m = 0 then nan else inf (xor a b)
  | fin a m1 e1, fin b m2 e2 => round (xor a b) (m1 * m2) (e1 + e2)

/-- Division of binary32 values.  The quotient of the significands is computed with at
least 33 significant bits and a sticky bit, which determines the rounding. -/
def div : F32 → F32 → F32
  | nan, _ => nan
  | _, nan => nan
  | inf _, inf _ => nan
  | inf a, fin b _ _ => inf (xor a b)
  | fin a _ _, inf b => fin (xor a b) 0 (-149)
  | fin a m1 e1, fin b m2 e2 =>
    if m2 = 0 then (if m1 = 0 then nan else inf (xor a b))
    else
      let k : Nat := bits m2 + 32
      let quo : Nat := (m1 * 2 ^ k) / m2
      let rem : Nat := (m1 * 2 ^ k) % m2
      let sticky : Nat := if rem = 0 then 0 else 1
      round (xor a b) (2 * quo + sticky) (e1 - e2 - (k : Int) - 1)

/-- Conversion to `int32` by truncation toward zero.  For a NaN, an infinity or a value
outside the `int32` range the conversion is undefined in C++; the model returns the
"integer indefinite" value `-2 ^ 31` that the x86-64 conversion instruction produces. -/
def toInt : F32 → Int
  | fin s m e =>
    let v : Int := signed s (if 0 ≤ e then m * 2 ^ e.toNat else m / 2 ^ (-e).toNat)
    if -2 ^ 31 ≤ v ∧ v < 2 ^ 31 then v else -2 ^ 31
  | _ => -2 ^ 31

/-- The rational value of a finite binary32 datum. -/
def toRat : F32 → Option ℚ
  | fin s m e => some ((signed s m : ℚ) * (2 : ℚ) ^ e)
  | _ => none

end F32

/-- IEEE 754 single precision as the `float` of the program. -/
def binary32 : FloatOps F32 where
  ofInt := F32.ofInt
  toInt := F32.toInt
  add := F32.add
  sub := F32.sub
  mul := F32.mul
  div := F32.div
  one := F32.ofInt 1

/-! ## Engine value types -/

/-- Engine type `FIntPoint`: a pair of `int32`. -/
structure FIntPoint where
  X : Int
  Y : Int
  deriving DecidableEq

/-- Engine type `FIntRect`: a rectangle given by two corners. -/
structure FIntRect where
  Min : FIntPoint
  Max : FIntPoint
  deriving DecidableEq

/-- Engine function `FIntRect::Width()`, the difference of the X corners. -/
def FIntRect.Width (r : FIntRect) : Int := wrap32 (r.Max.X - r.Min.X)

/-- Engine function `FIntRect::Height()`, the difference of the Y corners. -/
def FIntRect.Height (r : FIntRect) : Int := wrap32 (r.Max.Y - r.Min.Y)

/-- Engine type `FVector2D`: a pair of `float`. -/
structure FVector2D (F : Type) where
  X : F
  Y : F
  deriving DecidableEq

/-- Engine type `FVector4`: four `float` components; `v[0] .. v[3]` are `X`, `Y`, `Z`, `W`. -/
structure FVector4 (F : Type) where
  X : F
  Y : F
  Z : F
  W : F
  deriving DecidableEq

/-- Structure `FDepthPixel` (DepthReader.h:7): the pixel depth structure for readback. -/
structure FDepthPixel (F : Type) where
  Depth : F
  deriving DecidableEq

/-- A C array `T a[2]`. -/
structure Slots (α : Type) where
  s0 : α
  s1 : α
  deriving DecidableEq

/-- Element access `a[i]`.  Only `i = 0` and `i = 1` are inside the array; every other
index is read as the second element. -/
def Slots.get {α : Type} (a : Slots α) (i : Int) : α := if i = 0 then a.s0 else a.s1

/-- Element update `a[i] = v`, with the same convention as `Slots.get`. -/
def Slots.set {α : Type} (a : Slots α) (i : Int) (v : α) : Slots α :=
  if i = 0 then { a with s0 := v } else { a with s1 := v }

/-- What the two queries on a GPU fence return at the moment of a call:
`NumPendingWriteCommands.GetValue()` and `Poll()`. -/
structure FenceStatus where
  NumPendingWriteCommands : Int
  Poll : Bool
  deriving DecidableEq

/-! ## The object -/

/-- The member variables of `class ADepthReader` (DepthReader.h:22-77).  A fence
reference is `true` when it is set and valid; a texture reference is `none` when it is
unset and `some size` when it refers to a texture of that size. -/
structure ADepthReader (F : Type) where
  ResolutionFraction : F
  bDebugOutput : Bool
  CurrentRenderIndex : Int
  CurrentAlignedReadbackData : List (FDepthPixel F)
  CachedCoordScale : FVector2D F
  CachedReadbackTextureSize : FIntPoint
  CachedAlignedReadbackDataSize : FIntPoint
  LastDepth : F
  InvDeviceZToWorldZTransform : FVector4 F
  CopyResolveFence : Bool
  ReadDepthFence : Bool
  IntermediateTextures : Slots (Option FIntPoint)
  ReadbackTextures : Slots (Option FIntPoint)
  AlignedReadbackData : Slots (List (FDepthPixel F))
  bInitialized : Bool
  EffectiveSize : FIntRect
  DepthBufferSize : FIntPoint
  ReadbackTextureSize : FIntPoint
  AlignedReadbackDataSize : FIntPoint
  deriving DecidableEq

/-! ## Depth query facade (game thread) -/

/-- Member function `ADepthReader::ConvertDeviceZToDepth` (DepthReader.cpp:133-137).
`GNearClippingPlane` is the engine global of that name. -/
def ConvertDeviceZToDepth {F : Type} (fp : FloatOps F) (GNearClippingPlane : F)
    (self : ADepthReader F) (DeviceZ : F) : F :=
  fp.sub
    (fp.add
      (fp.add (fp.mul DeviceZ self.InvDeviceZToWorldZTransform.X)
        self.InvDeviceZToWorldZTransform.Y)
      (fp.div fp.one
        (fp.sub (fp.mul DeviceZ self.InvDeviceZToWorldZTransform.Z)
          self.InvDeviceZToWorldZTransform.W)))
    GNearClippingPlane

/-- The `int32` value of `Col + Row * CachedAlignedReadbackDataSize.X`
(DepthReader.cpp:102, right-hand side). -/
def linearIndex {F : Type} (self : ADepthReader F) (Col Row : Int) : Int :=
  wrap32 (Col + wrap32 (Row * self.CachedAlignedReadbackDataSize.X))

/-- Member function `ADepthReader::SampleDepth` (DepthReader.cpp:100-115).  `Index` is the `size_t`
conversion of the `int32` linear index; `Num()` is the length of the array.  The result
is the returned `float` and the object after the call; the warning of the else branch
is a log line only. -/
def SampleDepth {F : Type} (fp : FloatOps F) (GNearClippingPlane : F)
    (self : ADepthReader F) (Col Row : Int) : F × ADepthReader F :=
  let Index : Nat := toSizeT (linearIndex self Col Row)
  if h : Index < self.CurrentAlignedReadbackData.length then
    let DeviceZ : F := (self.CurrentAlignedReadbackData[Index]).Depth
    let SampledDepth : F := ConvertDeviceZToDepth fp GNearClippingPlane self DeviceZ
    (SampledDepth, { self with LastDepth := SampledDepth })
  else
    (self.LastDepth, self)

/-- Member function `ADepthReader::GetBufferPosFromMousePos` (DepthReader.cpp:117-131).
`ViewportSizeXY` is `Viewport->GetSizeXY()` of the first local player. -/
def GetBufferPosFromMousePos {F : Type} (fp : FloatOps F) (ViewportSizeXY : FIntPoint)
    (self : ADepthReader F) (MousePos : FIntPoint) : FIntPoint :=
  let X : F := fp.div (fp.ofInt MousePos.X) (fp.ofInt ViewportSizeXY.X)
  let Y : F := fp.div (fp.ofInt MousePos.Y) (fp.ofInt ViewportSizeXY.Y)
  let ScaledX : F :=
    fp.mul (fp.mul X (fp.ofInt self.CachedReadbackTextureSize.X)) self.CachedCoordScale.X
  let ScaledY : F :=
    fp.mul (fp.mul Y (fp.ofInt self.CachedReadbackTextureSize.Y)) self.CachedCoordScale.Y
  let MouseX : Int := Clamp (fp.toInt ScaledX) 0 (wrap32 (self.CachedReadbackTextureSize.X - 1))
  let MouseY : Int := Clamp (fp.toInt ScaledY) 0 (wrap32 (self.CachedReadbackTextureSize.Y - 1))
  ⟨MouseX, MouseY⟩

/-- Member function `ADepthReader::GetDepth` (DepthReader.cpp:94-98). -/
def GetDepth {F : Type} (fp : FloatOps F) (GNearClippingPlane : F)
    (ViewportSizeXY : FIntPoint) (self : ADepthReader F) (MousePos : FIntPoint) :
    F × ADepthReader F :=
  let Coord : FIntPoint := GetBufferPosFromMousePos fp ViewportSizeXY self MousePos
  SampleDepth fp GNearClippingPlane self Coord.X Coord.Y

/-! ## Double buffer handoff (game thread) -/

/-- The test `Fence->NumPendingWriteCommands.GetValue() == 0 || Fence->Poll()`
(DepthReader.cpp:142 and 208). -/
def FenceStatus.Complete (st : FenceStatus) : Bool :=
  st.NumPendingWriteCommands == 0 || st.Poll

/-- Member function `ADepthReader::UpdateCaptureDepthTexture` (DepthReader.cpp:139-187).  `ReadDepth` is
what the read-depth fence answers when it is queried.  The block under "Debug stuff"
(lines 163-185) only reads members and writes a bitmap file, so it has no effect on the
object. -/
def UpdateCaptureDepthTexture {F : Type} (fp : FloatOps F) (self : ADepthReader F)
    (ReadDepth : FenceStatus) : ADepthReader F :=
  if !self.ReadDepthFence || ReadDepth.Complete then
    { self with
      CurrentAlignedReadbackData := self.AlignedReadbackData.get self.CurrentRenderIndex
      CachedCoordScale :=
        ⟨fp.div (fp.ofInt self.EffectiveSize.Width) (fp.ofInt self.DepthBufferSize.X),
         fp.div (fp.ofInt self.EffectiveSize.Height) (fp.ofInt self.DepthBufferSize.Y)⟩
      CachedReadbackTextureSize := self.ReadbackTextureSize
      CachedAlignedReadbackDataSize := self.AlignedReadbackDataSize
      CurrentRenderIndex := cmod (wrap32 (self.CurrentRenderIndex + 1)) 2 }
  else
    self

/-- Member function `ADepthReader::Tick` (DepthReader.cpp:53-74): the handoff, then the capture of the
`InvDeviceZToWorldZTransform` of the view, which is given as `SceneViewTransform`. -/
def Tick {F : Type} (fp : FloatOps F) (self : ADepthReader F) (ReadDepth : FenceStatus)
    (SceneViewTransform : FVector4 F) : ADepthReader F :=
  { UpdateCaptureDepthTexture fp self ReadDepth with
    InvDeviceZToWorldZTransform := SceneViewTransform }

/-! ## Capture pipeline (render thread) -/

/-- Engine type `FPostOpaqueRenderParameters`, as far as the reader uses it: the viewport rectangle
and `DepthTexture->GetSizeXY()`. -/
structure FPostOpaqueRenderParameters where
  ViewportRect : FIntRect
  DepthTexture : FIntPoint
  deriving DecidableEq

/-- What the RHI answers during one render-thread invocation: the status of the
copy-resolve fence, the `Width`/`Height` that `MapStagingSurface` reports for the
readback texture of slot `i`, the cells of the mapped staging memory, and the content
of array cells that are allocated without being written. -/
structure FRHIAnswers (F : Type) where
  CopyResolve : FenceStatus
  StagingExtent : Int → FIntPoint
  StageBuffer : Nat → FDepthPixel F
  Uninitialized : Nat → FDepthPixel F

/-- Engine function `TArray::SetNumUninitialized(NewNum)`: the first cells keep their content, added
cells hold whatever the allocation holds. -/
def SetNumUninitialized {α : Type} (xs : List α) (NewNum : Int) (Uninitialized : Nat → α) :
    List α :=
  (List.range NewNum.toNat).map (fun k => xs.getD k (Uninitialized k))

/-- Engine function `FMemory::Memcpy(Dest, Src, Bytes)` for cells of four bytes: every cell of `Dest`
that lies wholly below `Bytes` is overwritten.  (A count beyond the end of `Dest` would
write outside the array; the model writes the cells of `Dest` only.) -/
def Memcpy {α : Type} (Dest : List α) (Src : Nat → α) (Bytes : Nat) : List α :=
  (List.range Dest.length).map (fun k => if 4 * k + 4 ≤ Bytes then Src k else Dest.getD k (Src k))

/-- One pass of the loop `for (int i = 0; i < 2; i++)` of
`CheckDepthTexture_RenderThread` (DepthReader.cpp:242-286): both textures of slot `i`
are released and created anew at `ReadbackTextureSize`, the staging surface is mapped,
and the CPU buffer of the slot is sized to the reported extent. -/
def CheckDepthTexture_RenderThread_slot {F : Type} (rhi : FRHIAnswers F)
    (self : ADepthReader F) (i : Int) : ADepthReader F :=
  let Extent : FIntPoint := rhi.StagingExtent i
  { self with
    ReadbackTextures := self.ReadbackTextures.set i (some self.ReadbackTextureSize)
    IntermediateTextures := self.IntermediateTextures.set i (some self.ReadbackTextureSize)
    AlignedReadbackData :=
      self.AlignedReadbackData.set i
        (SetNumUninitialized (self.AlignedReadbackData.get i) (wrap32 (Extent.X * Extent.Y))
          rhi.Uninitialized)
    AlignedReadbackDataSize := Extent }

/-- Member function `ADepthReader::CheckDepthTexture_RenderThread` (DepthReader.cpp:215-294).  Both fences
exist afterwards.  `FIntPoint(ResX, ResY)` converts the two `float` arguments to `int32`. -/
def CheckDepthTexture_RenderThread {F : Type} (fp : FloatOps F) (rhi : FRHIAnswers F)
    (self : ADepthReader F) (DepthTexture : FIntPoint) : ADepthReader F :=
  let self1 : ADepthReader F :=
    { self with CopyResolveFence := true, ReadDepthFence := true, DepthBufferSize := DepthTexture }
  let ResX : F := fp.mul (fp.ofInt self1.DepthBufferSize.X) self1.ResolutionFraction
  let ResY : F := fp.mul (fp.ofInt self1.DepthBufferSize.Y) self1.ResolutionFraction
  let DesiredReadbackTextureSize : FIntPoint := ⟨fp.toInt ResX, fp.toInt ResY⟩
  if self1.ReadbackTextureSize ≠ DesiredReadbackTextureSize then
    CheckDepthTexture_RenderThread_slot rhi
      (CheckDepthTexture_RenderThread_slot rhi
        { self1 with ReadbackTextureSize := DesiredReadbackTextureSize } 0) 1
  else
    self1

/-- Member function `ADepthReader::ReadDepthTexture_RenderThread` (DepthReader.cpp:364-383): the mapped
staging memory is copied into the CPU buffer of slot `RenderIndex`. -/
def ReadDepthTexture_RenderThread {F : Type} (rhi : FRHIAnswers F) (self : ADepthReader F)
    (RenderIndex : Int) : ADepthReader F :=
  let Bytes : Nat :=
    (toSizeT (wrap32 (self.AlignedReadbackDataSize.X * self.AlignedReadbackDataSize.Y)) * 4)
      % 2 ^ 64
  { self with
    AlignedReadbackData :=
      self.AlignedReadbackData.set RenderIndex
        (Memcpy (self.AlignedReadbackData.get RenderIndex) rhi.StageBuffer Bytes) }

/-- The two steps that `UpdateCaptureDepthTexture_RenderThread` can call, with the slot
index it passes.  `CopyDepthToResolve_RenderThread` (DepthReader.cpp:296-362) is a
`const` member function that only records GPU commands (the resample pass into
`IntermediateTextures[RenderIndex]` and the copy into `ReadbackTextures[RenderIndex]`). -/
inductive RenderCall where
  | ReadDepthTexture_RenderThread (RenderIndex : Int)
  | CopyDepthToResolve_RenderThread (DepthTexture : FIntPoint) (RenderIndex : Int)
  deriving DecidableEq

/-- Member function `ADepthReader::UpdateCaptureDepthTexture_RenderThread` (DepthReader.cpp:189-213).
The result is the object after the invocation and the steps that were called, in order. -/
def UpdateCaptureDepthTexture_RenderThread {F : Type} (fp : FloatOps F) (rhi : FRHIAnswers F)
    (self : ADepthReader F) (P : FPostOpaqueRenderParameters) :
    ADepthReader F × List RenderCall :=
  let RenderIndex : Int := self.CurrentRenderIndex
  let self1 : ADepthReader F := { self with EffectiveSize := P.ViewportRect }
  let self2 : ADepthReader F := CheckDepthTexture_RenderThread fp rhi self1 P.DepthTexture
  if !self2.bInitialized then
    ({ self2 with bInitialized := true },
      [RenderCall.CopyDepthToResolve_RenderThread P.DepthTexture RenderIndex])
  else if rhi.CopyResolve.Complete then
    (ReadDepthTexture_RenderThread rhi self2 RenderIndex,
      [RenderCall.ReadDepthTexture_RenderThread RenderIndex,
       RenderCall.CopyDepthToResolve_RenderThread P.DepthTexture RenderIndex])
  else
    (self2, [])

/-- Consecutive invocations of `UpdateCaptureDepthTexture_RenderThread`, one per frame;
the result lists the steps called by each invocation. -/
def renderFrames {F : Type} (fp : FloatOps F) :
    ADepthReader F → List (FRHIAnswers F × FPostOpaqueRenderParameters) →
      ADepthReader F × List (List RenderCall)
  | self, [] => (self, [])
  | self, (rhi, P) :: rest =>
    let r := UpdateCaptureDepthTexture_RenderThread fp rhi self P
    let rs := renderFrames fp r.1 rest
    (rs.1, r.2 :: rs.2)

/-! ## Interleaved runs of the two threads -/

/-- A call into the object: a game-thread `Tick`, a render-thread invocation of the
post-opaque delegate, or a `GetDepth` query. -/
inductive Call (F : Type) where
  | Tick (ReadDepth : FenceStatus) (SceneViewTransform : FVector4 F)
  | RenderThread (rhi : FRHIAnswers F) (P : FPostOpaqueRenderParameters)
  | GetDepth (ViewportSizeXY : FIntPoint) (MousePos : FIntPoint)

/-- What a call did: a handoff that copied slot `Slot` into the snapshot, or a
render-thread step. -/
inductive Event where
  | Publish (Slot : Int)
  | Render (c : RenderCall)
  deriving DecidableEq

/-- One call.  Every member function holds `CriticalSection` around its accesses to the
shared members, so calls are taken one after the other. -/
def step {F : Type} (fp : FloatOps F) (GNearClippingPlane : F) (self : ADepthReader F) :
    Call F → ADepthReader F × List Event
  | Call.Tick ReadDepth SceneViewTransform =>
    (Tick fp self ReadDepth SceneViewTransform,
      if !self.ReadDepthFence || ReadDepth.Complete then [Event.Publish self.CurrentRenderIndex]
      else [])
  | Call.RenderThread rhi P =>
    let r := UpdateCaptureDepthTexture_RenderThread fp rhi self P
    (r.1, r.2.map Event.Render)
  | Call.GetDepth ViewportSizeXY MousePos =>
    ((GetDepth fp GNearClippingPlane ViewportSizeXY self MousePos).2, [])

/-- A sequence of calls, with the events in order. -/
def exec {F : Type} (fp : FloatOps F) (GNearClippingPlane : F) :
    ADepthReader F → List (Call F) → ADepthReader F × List Event
  | self, [] => (self, [])
  | self, c :: rest =>
    let r := step fp GNearClippingPlane self c
    let rs := exec fp GNearClippingPlane r.1 rest
    (rs.1, r.2 ++ rs.2)

/-- The slots copied by the handoffs of a run, in order. -/
def publishedSlots : List Event → List Int
  | [] => []
  | Event.Publish i :: rest => i :: publishedSlots rest
  | Event.Render _ :: rest => publishedSlots rest

/-! ## The resize target of the specification -/

/-- The desired downsampled size on one axis in the words of the specification:
`round(sourceSize * resolutionFraction)`, over the rationals. -/
def specDesiredSize (sourceSize : Int) (resolutionFraction : ℚ) : Int :=
  round ((sourceSize : ℚ) * resolutionFraction)

/-! ## Concrete objects -/

/-- The object after construction: the engine zero-fills the memory of a new actor and
the header sets `ResolutionFraction = .25f`. -/
def initial : ADepthReader F32 where
  ResolutionFraction := F32.ofScaled 1 (-2)
  bDebugOutput := false
  CurrentRenderIndex := 0
  CurrentAlignedReadbackData := []
  CachedCoordScale := ⟨F32.ofInt 0, F32.ofInt 0⟩
  CachedReadbackTextureSize := ⟨0, 0⟩
  CachedAlignedReadbackDataSize := ⟨0, 0⟩
  LastDepth := F32.ofInt 0
  InvDeviceZToWorldZTransform := ⟨F32.ofInt 0, F32.ofInt 0, F32.ofInt 0, F32.ofInt 0⟩
  CopyResolveFence := false
  ReadDepthFence := false
  IntermediateTextures := ⟨none, none⟩
  ReadbackTextures := ⟨none, none⟩
  AlignedReadbackData := ⟨[], []⟩
  bInitialized := false
  EffectiveSize := ⟨⟨0, 0⟩, ⟨0, 0⟩⟩
  DepthBufferSize := ⟨0, 0⟩
  ReadbackTextureSize := ⟨0, 0⟩
  AlignedReadbackDataSize := ⟨0, 0⟩

/-- Whether a call is a `GetDepth` query. -/
def Call.isGetDepth {F : Type} : Call F → Bool
  | Call.GetDepth _ _ => true
  | _ => false

/-- RHI answers of a small platform: staging rows are padded to eight cells, fences are
complete, and cell `k` of the mapped staging memory holds `(k + 1) / 16`. -/
def demoAnswers : FRHIAnswers F32 where
  CopyResolve := ⟨0, false⟩
  StagingExtent := fun _ => ⟨8, 3⟩
  StageBuffer := fun k => ⟨F32.ofScaled ((k : Int) + 1) (-4)⟩
  Uninitialized := fun _ => ⟨F32.nan⟩

/-- The same platform while the copy-resolve fence is still pending. -/
def stalledAnswers : FRHIAnswers F32 :=
  { demoAnswers with CopyResolve := ⟨1, false⟩ }

/-- A frame whose depth texture is 16x12 and whose viewport covers all of it. -/
def demoFrame : FPostOpaqueRenderParameters := ⟨⟨⟨0, 0⟩, ⟨16, 12⟩⟩, ⟨16, 12⟩⟩

/-- A frame whose depth texture is 16x12 and whose viewport rectangle is 8x6. -/
def halfFrame : FPostOpaqueRenderParameters := ⟨⟨⟨0, 0⟩, ⟨8, 6⟩⟩, ⟨16, 12⟩⟩

/-- Transform coefficients `[1, 0, 1, -1]`. -/
def demoView : FVector4 F32 := ⟨F32.ofInt 1, F32.ofInt 0, F32.ofInt 1, F32.ofInt (-1)⟩

/-- The near clipping plane distance used in the concrete runs. -/
def demoNear : F32 := F32.ofInt 10

/-- The object after two frames and one tick: the first frame primes the pipeline, the
second reads slot 0 back, the tick publishes slot 0. -/
def demoObject : ADepthReader F32 :=
  (exec binary32 demoNear initial
    [Call.RenderThread demoAnswers demoFrame, Call.RenderThread demoAnswers demoFrame,
     Call.Tick ⟨0, false⟩ demoView]).1

/-- The same run with the 8x6 viewport rectangle. -/
def halfObject : ADepthReader F32 :=
  (exec binary32 demoNear initial
    [Call.RenderThread demoAnswers halfFrame, Call.RenderThread demoAnswers halfFrame,
     Call.Tick ⟨0, false⟩ demoView]).1

/-- A run of the two threads: two frames, a publishing tick, a stalled frame, a second
publishing tick, a gated tick, a tick whose fence polls true, a frame, a query. -/
def demoCalls : List (Call F32) :=
  [Call.RenderThread demoAnswers demoFrame, Call.RenderThread demoAnswers demoFrame,
   Call.Tick ⟨0, false⟩ demoView, Call.RenderThread stalledAnswers demoFrame,
   Call.Tick ⟨0, false⟩ demoView, Call.Tick ⟨1, false⟩ demoView, Call.Tick ⟨1, true⟩ demoView,
   Call.RenderThread demoAnswers demoFrame, Call.GetDepth ⟨800, 600⟩ ⟨400, 300⟩]

/-! ## Machine integers: facts -/

theorem wrap32_eq_self {x : Int} (h : IsInt32 x) : wrap32 x = x := by
  unfold IsInt32 at h
  unfold wrap32
  omega

theorem isInt32_wrap32 (x : Int) : IsInt32 (wrap32 x) := by
  unfold IsInt32 wrap32
  omega

theorem wrap32_add_wrap32 (a b : Int) : wrap32 (a + wrap32 b) = wrap32 (a + b) := by
  unfold wrap32
  omega

theorem toSizeT_of_nonneg {v : Int} (h0 : 0 ≤ v) (h1 : v < 2 ^ 31) : toSizeT v = v.toNat := by
  unfold toSizeT
  omega

theorem toSizeT_of_neg {v : Int} (h0 : v < 0) (h1 : -2 ^ 31 ≤ v) : 2 ^ 63 ≤ toSizeT v := by
  unfold toSizeT
  omega

/-- For an `int32` value and an array length that fits an `int32`, the unsigned comparison
`Index < Num()` holds exactly when the signed value is a valid index. -/
theorem toSizeT_lt_iff {v : Int} (hv : IsInt32 v) {n : Nat} (hn : n < 2 ^ 31) :
    toSizeT v < n ↔ 0 ≤ v ∧ v < (n : Int) := by
  unfold IsInt32 at hv
  by_cases h : 0 ≤ v
  · rw [toSizeT_of_nonneg h hv.2]
    omega
  · have := toSizeT_of_neg (not_le.mp h) hv.1
    omega

theorem Clamp_bounds (X Min Max : Int) (h : Min ≤ Max) :
    Min ≤ Clamp X Min Max ∧ Clamp X Min Max ≤ Max := by
  unfold Clamp
  split_ifs <;> omega

theorem Clamp_eq_max_iff (X Min Max : Int) (h : Min ≤ Max) :
    Clamp X Min Max = Max ↔ Max ≤ max X Min := by
  unfold Clamp
  split_ifs <;> omega

theorem Clamp_eq_min_max (X Min Max : Int) (h : Min ≤ Max) :
    Clamp X Min Max = min (max X Min) Max := by
  unfold Clamp
  split_ifs <;> omega

/-- When the exact value of `Col + Row * Width` fits an `int32`, it is the value the code
computes. -/
theorem linearIndex_eq {F : Type} (self : ADepthReader F) (Col Row : Int)
    (h : IsInt32 (Col + Row * self.CachedAlignedReadbackDataSize.X)) :
    linearIndex self Col Row = Col + Row * self.CachedAlignedReadbackDataSize.X := by
  unfold linearIndex
  rw [wrap32_add_wrap32, wrap32_eq_self h]

/-! ## binary32: exact cases of rounding -/

namespace F32

theorem bitsAux_spec : ∀ (fuel n : Nat), n ≤ fuel →
    n < 2 ^ bitsAux fuel n ∧ (n ≠ 0 → 1 ≤ bitsAux fuel n ∧ 2 ^ (bitsAux fuel n - 1) ≤ n) := by
  intro fuel
  induction fuel with
  | zero =>
    intro n hn
    have : n = 0 := by omega
    subst this
    simp [bitsAux]
  | succ f ih =>
    intro n hn
    by_cases h0 : n = 0
    · subst h0
      simp [bitsAux]
    · have hhalf : n / 2 ≤ f := by omega
      obtain ⟨hlt, hge⟩ := ih (n / 2) hhalf
      simp only [bitsAux, if_neg h0]
      refine ⟨?_, fun _ => ⟨by omega, ?_⟩⟩
      · rw [pow_succ]
        omega
      · simp only [Nat.add_sub_cancel]
        by_cases h1 : n / 2 = 0
        · have : bitsAux f (n / 2) = 0 := by
            rw [h1]
            cases f <;> simp [bitsAux]
          rw [this]
          simp
          omega
        · obtain ⟨hpos, hle⟩ := hge h1
          have : bitsAux f (n / 2) = (bitsAux f (n / 2) - 1) + 1 := by omega
          rw [this, pow_succ]
          omega

theorem bits_spec (n : Nat) (h : n ≠ 0) : 1 ≤ bits n ∧ 2 ^ (bits n - 1) ≤ n ∧ n < 2 ^ bits n := by
  have := bitsAux_spec n n (le_refl n)
  exact ⟨(this.2 h).1, (this.2 h).2, this.1⟩

theorem bits_unique (n b : Nat) (hb : 1 ≤ b) (h1 : 2 ^ (b - 1) ≤ n) (h2 : n < 2 ^ b) :
    bits n = b := by
  have hn : n ≠ 0 := by
    have : 0 < 2 ^ (b - 1) := Nat.two_pow_pos (b - 1)
    omega
  obtain ⟨hp, hl, hu⟩ := bits_spec n hn
  by_contra hne
  rcases Nat.lt_or_gt_of_ne hne with hlt | hgt
  · have : 2 ^ bits n ≤ 2 ^ (b - 1) := Nat.pow_le_pow_right (by norm_num) (by omega)
    omega
  · have : 2 ^ b ≤ 2 ^ (bits n - 1) := Nat.pow_le_pow_right (by norm_num) (by omega)
    omega

theorem bits_le_of_lt_pow (n b : Nat) (hn : n ≠ 0) (h : n < 2 ^ b) : bits n ≤ b := by
  obtain ⟨hp, hl, _⟩ := bits_spec n hn
  by_contra hgt
  have : 2 ^ b ≤ 2 ^ (bits n - 1) := Nat.pow_le_pow_right (by norm_num) (by omega)
  omega

/-- A value with at most 24 significant bits inside the exponent range is not rounded. -/
theorem round_small (s : Bool) (m : Nat) (e : Int) (hm : m ≠ 0) (hb : bits m ≤ 24)
    (hlo : -149 ≤ e + (bits m : Int) - 24) (hhi : e + (bits m : Int) - 24 ≤ 104) :
    round s m e = fin s (m * 2 ^ (24 - bits m)) (e + (bits m : Int) - 24) := by
  have hq : max (e + (bits m : Int) - 1 - 23) (-149) = e + (bits m : Int) - 24 := by
    rw [max_eq_left (by omega)]
    omega
  have hle : e + (bits m : Int) - 24 ≤ e := by omega
  have hnot : ¬ (104 < e + (bits m : Int) - 24) := by omega
  have hsh : (e - (e + (bits m : Int) - 24)).toNat = 24 - bits m := by omega
  simp only [round, if_neg hm, hq, if_pos hle, if_neg hnot, hsh]

/-- A normalised significand times a power of two is rounded to itself. -/
theorem round_shifted (s : Bool) (m k : Nat) (e : Int) (h1 : 2 ^ 23 ≤ m) (h2 : m < 2 ^ 24)
    (hlo : -149 ≤ e + (k : Int)) (hhi : e + (k : Int) ≤ 104) :
    round s (m * 2 ^ k) e = fin s m (e + (k : Int)) := by
  have hkpos : 0 < 2 ^ k := Nat.two_pow_pos k
  have hm : m * 2 ^ k ≠ 0 := by
    have : 0 < m * 2 ^ k := Nat.mul_pos (by omega) hkpos
    omega
  have hbits : bits (m * 2 ^ k) = 24 + k := by
    apply bits_unique _ _ (by omega)
    · have : 24 + k - 1 = 23 + k := by omega
      rw [this, pow_add]
      exact Nat.mul_le_mul_right _ h1
    · rw [pow_add]
      exact Nat.mul_lt_mul_of_pos_right h2 hkpos
  have hq : max (e + ((24 + k : Nat) : Int) - 1 - 23) (-149) = e + (k : Int) := by
    rw [max_eq_left (by push_cast; omega)]
    push_cast
    omega
  have hnot : ¬ (104 < e + (k : Int)) := by omega
  by_cases hk : k = 0
  · subst hk
    simp only [round, if_neg hm, hbits, hq]
    simp
    omega
  · have hle : ¬ (e + (k : Int) ≤ e) := by omega
    have hsh : (e + (k : Int) - e).toNat = k := by omega
    have ht : m * 2 ^ k / 2 ^ k = m := Nat.mul_div_cancel _ hkpos
    have hr : m * 2 ^ k % 2 ^ k = 0 := Nat.mul_mod_left _ _
    have hhalf : 0 < 2 ^ (k - 1) := Nat.two_pow_pos (k - 1)
    have hup : ¬ (2 ^ (k - 1) < 0 ∨ (0 = 2 ^ (k - 1) ∧ m % 2 = 1)) := by omega
    have hne : m ≠ 2 ^ 24 := by omega
    simp only [round, if_neg hm, hbits, hq, if_neg hle, hsh, ht, hr, if_neg hup, if_neg hne,
      if_neg hnot]

/-- The conversion of an integer below `2 ^ 24` is exact. -/
theorem ofInt_small (n : Nat) (h0 : n ≠ 0) (h : n < 2 ^ 24) :
    ofInt (n : Int) = fin false (n * 2 ^ (24 - bits n)) ((bits n : Int) - 24) := by
  have hb := bits_le_of_lt_pow n 24 h0 h
  have hp := (bits_spec n h0).1
  have hneg : decide ((n : Int) < 0) = false := by simp
  unfold ofInt ofScaled
  rw [hneg, Int.natAbs_ofNat, round_small false n 0 h0 hb (by omega) (by omega)]
  congr 1
  omega

theorem normalised_of_bits (n : Nat) (h0 : n ≠ 0) (h : n < 2 ^ 24) :
    2 ^ 23 ≤ n * 2 ^ (24 - bits n) ∧ n * 2 ^ (24 - bits n) < 2 ^ 24 := by
  have hb := bits_le_of_lt_pow n 24 h0 h
  obtain ⟨hp, hl, hu⟩ := bits_spec n h0
  have e1 : 2 ^ 23 = 2 ^ (bits n - 1) * 2 ^ (24 - bits n) := by
    rw [← pow_add]
    congr 1
    omega
  have e2 : 2 ^ 24 = 2 ^ bits n * 2 ^ (24 - bits n) := by
    rw [← pow_add]
    congr 1
    omega
  rw [e1]
  constructor
  · exact Nat.mul_le_mul_right _ hl
  · calc n * 2 ^ (24 - bits n) < 2 ^ bits n * 2 ^ (24 - bits n) :=
        Nat.mul_lt_mul_of_pos_right hu (Nat.two_pow_pos _)
      _ = 2 ^ 24 := e2.symm

/-- In binary32 the truncated product of an integer below `2 ^ 24` and `0.25` is the
integer quotient by 4. -/
theorem toInt_mul_quarter (n : Nat) (h : n < 2 ^ 24) :
    toInt (mul (ofInt (n : Int)) (ofScaled 1 (-2))) = ((n / 4 : Nat) : Int) := by
  have hquarter : ofScaled 1 (-2) = fin false (2 ^ 23) (-25) := by decide
  rw [hquarter]
  by_cases h0 : n = 0
  · subst h0
    decide
  · have hb := bits_le_of_lt_pow n 24 h0 h
    have hp := (bits_spec n h0).1
    obtain ⟨hn1, hn2⟩ := normalised_of_bits n h0 h
    rw [ofInt_small n h0 h]
    simp only [mul, Bool.xor_false]
    rw [round_shifted false _ 23 _ hn1 hn2 (by omega) (by omega)]
    have he : ¬ (0 : Int) ≤ (bits n : Int) - 24 + -25 + ((23 : Nat) : Int) := by omega
    have hsh : (-((bits n : Int) - 24 + -25 + ((23 : Nat) : Int))).toNat = 26 - bits n := by omega
    have hpow : 2 ^ (26 - bits n) = 2 ^ (24 - bits n) * 4 := by
      have : 26 - bits n = (24 - bits n) + 2 := by omega
      rw [this, pow_add]
      norm_num
    have hdiv : n * 2 ^ (24 - bits n) / 2 ^ (26 - bits n) = n / 4 := by
      rw [hpow, Nat.mul_comm n, Nat.mul_div_mul_left _ _ (Nat.two_pow_pos _)]
    have hrange : (n / 4 : Nat) < 2 ^ 24 := by omega
    simp only [toInt, if_neg he, hsh, hdiv, signed]
    have hcond : -2 ^ 31 ≤ ((n / 4 : Nat) : Int) ∧ ((n / 4 : Nat) : Int) < 2 ^ 31 := by
      constructor <;> omega
    simp only [Bool.false_eq_true, if_false, if_pos hcond]

theorem bits_normalised (m : Nat) (h1 : 2 ^ 23 ≤ m) (h2 : m < 2 ^ 24) : bits m = 24 :=
  bits_unique m 24 (by norm_num) h1 h2

/-- Multiplication by `1.0f` on the left keeps a normalised finite value. -/
theorem one_mul_fin (s : Bool) (m : Nat) (e : Int) (h1 : 2 ^ 23 ≤ m) (h2 : m < 2 ^ 24)
    (hlo : -149 ≤ e) (hhi : e ≤ 104) : mul (ofInt 1) (fin s m e) = fin s m e := by
  have hone : ofInt 1 = fin false (2 ^ 23) (-23) := by decide
  rw [hone]
  simp only [mul, Bool.false_xor]
  rw [Nat.mul_comm, round_shifted s m 23 _ h1 h2 (by omega) (by omega)]
  congr 1
  omega

/-- Multiplication by `1.0f` on the right keeps a normalised finite value. -/
theorem fin_mul_one (s : Bool) (m : Nat) (e : Int) (h1 : 2 ^ 23 ≤ m) (h2 : m < 2 ^ 24)
    (hlo : -149 ≤ e) (hhi : e ≤ 104) : mul (fin s m e) (ofInt 1) = fin s m e := by
  have hone : ofInt 1 = fin false (2 ^ 23) (-23) := by decide
  rw [hone]
  simp only [mul, Bool.xor_false]
  rw [round_shifted s m 23 _ h1 h2 (by omega) (by omega)]
  congr 1
  omega

/-- A non-zero integer below `2 ^ 24` divided by itself is exactly `1.0f`. -/
theorem div_ofInt_self (n : Nat) (h0 : n ≠ 0) (h : n < 2 ^ 24) :
    div (ofInt (n : Int)) (ofInt (n : Int)) = ofInt 1 := by
  have hone : ofInt 1 = fin false (2 ^ 23) (-23) := by decide
  obtain ⟨hn1, hn2⟩ := normalised_of_bits n h0 h
  have hM : n * 2 ^ (24 - bits n) ≠ 0 := by omega
  have hMpos : 0 < n * 2 ^ (24 - bits n) := by omega
  rw [ofInt_small n h0 h, hone]
  simp only [div, if_neg hM, bits_normalised _ hn1 hn2, Bool.xor_self]
  have hq : n * 2 ^ (24 - bits n) * 2 ^ (24 + 32) / (n * 2 ^ (24 - bits n)) = 2 ^ 56 := by
    rw [Nat.mul_comm, Nat.mul_div_cancel _ hMpos]
  have hr : n * 2 ^ (24 - bits n) * 2 ^ (24 + 32) % (n * 2 ^ (24 - bits n)) = 0 :=
    Nat.mul_mod_right _ _
  rw [hq, hr]
  have hform : 2 * 2 ^ 56 + (if (0 : Nat) = 0 then 0 else 1) = 2 ^ 23 * 2 ^ 34 := by norm_num
  rw [hform, round_shifted false (2 ^ 23) 34 _ (le_refl _) (by norm_num) (by push_cast; omega)
    (by push_cast; omega)]
  congr 1
  push_cast
  omega

/-- The conversion of an integer below `2 ^ 24` to binary32 and back is the identity. -/
theorem toInt_ofInt_small (n : Nat) (h : n < 2 ^ 24) : toInt (ofInt (n : Int)) = (n : Int) := by
  by_cases h0 : n = 0
  · subst h0
    decide
  · have hb := bits_le_of_lt_pow n 24 h0 h
    have hp := (bits_spec n h0).1
    rw [ofInt_small n h0 h]
    have hcond : -2 ^ 31 ≤ (n : Int) ∧ (n : Int) < 2 ^ 31 := by
      constructor <;> omega
    by_cases hb24 : bits n = 24
    · rw [hb24]
      have hval : (if (0 : Int) ≤ ((24 : Nat) : Int) - 24
          then n * 2 ^ (24 - 24) * 2 ^ (((24 : Nat) : Int) - 24).toNat
          else n * 2 ^ (24 - 24) / 2 ^ (-(((24 : Nat) : Int) - 24)).toNat) = n := by
        norm_num
      simp only [toInt, hval, signed, Bool.false_eq_true, if_false]
      rw [if_pos hcond]
    · have he : ¬ (0 : Int) ≤ (bits n : Int) - 24 := by omega
      have hsh : (-((bits n : Int) - 24)).toNat = 24 - bits n := by omega
      have hdiv : n * 2 ^ (24 - bits n) / 2 ^ (24 - bits n) = n :=
        Nat.mul_div_cancel _ (Nat.two_pow_pos _)
      simp only [toInt, if_neg he, hsh, hdiv, signed, Bool.false_eq_true, if_false]
      rw [if_pos hcond]

/-- The scaled coordinate of a point at normalised `1.0` under a coordinate scale of
`1.0` is the size itself. -/
theorem toInt_scaled_unit (w : Nat) (h0 : w ≠ 0) (h : w < 2 ^ 24) :
    toInt (mul (mul (ofInt 1) (ofInt (w : Int))) (ofInt 1)) = (w : Int) := by
  have hb := bits_le_of_lt_pow w 24 h0 h
  have hp := (bits_spec w h0).1
  obtain ⟨hn1, hn2⟩ := normalised_of_bits w h0 h
  have hrt := toInt_ofInt_small w h
  rw [ofInt_small w h0 h] at hrt ⊢
  rw [one_mul_fin false _ _ hn1 hn2 (by omega) (by omega),
    fin_mul_one false _ _ hn1 hn2 (by omega) (by omega)]
  exact hrt

end F32

/-! ## `SampleDepth` -/

theorem SampleDepth_outside {F : Type} (fp : FloatOps F) (GNearClippingPlane : F)
    (self : ADepthReader F) (Col Row : Int)
    (hlen : self.CurrentAlignedReadbackData.length < 2 ^ 31)
    (hout : ¬ (0 ≤ linearIndex self Col Row ∧
      linearIndex self Col Row < (self.CurrentAlignedReadbackData.length : Int))) :
    SampleDepth fp GNearClippingPlane self Col Row = (self.LastDepth, self) := by
  have hv : IsInt32 (linearIndex self Col Row) := isInt32_wrap32 _
  have hno : ¬ toSizeT (linearIndex self Col Row) < self.CurrentAlignedReadbackData.length :=
    fun hlt => hout ((toSizeT_lt_iff hv hlen).mp hlt)
  unfold SampleDepth
  simp only [hno, dite_false]

theorem SampleDepth_inside {F : Type} (fp : FloatOps F) (GNearClippingPlane : F)
    (self : ADepthReader F) (Col Row : Int)
    (hlen : self.CurrentAlignedReadbackData.length < 2 ^ 31)
    (h0 : 0 ≤ linearIndex self Col Row)
    (h1 : linearIndex self Col Row < (self.CurrentAlignedReadbackData.length : Int)) :
    ∃ px : FDepthPixel F,
      self.CurrentAlignedReadbackData[(linearIndex self Col Row).toNat]? = some px ∧
      SampleDepth fp GNearClippingPlane self Col Row =
        (ConvertDeviceZToDepth fp GNearClippingPlane self px.Depth,
          { self with LastDepth := ConvertDeviceZToDepth fp GNearClippingPlane self px.Depth }) := by
  have hv : IsInt32 (linearIndex self Col Row) := isInt32_wrap32 _
  have hlt : toSizeT (linearIndex self Col Row) < self.CurrentAlignedReadbackData.length :=
    (toSizeT_lt_iff hv hlen).mpr ⟨h0, h1⟩
  have hidx : toSizeT (linearIndex self Col Row) = (linearIndex self Col Row).toNat :=
    toSizeT_of_nonneg h0 hv.2
  refine ⟨self.CurrentAlignedReadbackData[toSizeT (linearIndex self Col Row)], ?_, ?_⟩
  · rw [← hidx]
    exact List.getElem?_eq_getElem hlt
  · unfold SampleDepth
    simp only [hlt, dite_true]

/-! ## `GetBufferPosFromMousePos` -/

theorem GetBufferPosFromMousePos_bounds {F : Type} (fp : FloatOps F)
    (ViewportSizeXY : FIntPoint) (self : ADepthReader F) (MousePos : FIntPoint)
    (hw : 1 ≤ self.CachedReadbackTextureSize.X) (hw32 : IsInt32 self.CachedReadbackTextureSize.X)
    (hh : 1 ≤ self.CachedReadbackTextureSize.Y) (hh32 : IsInt32 self.CachedReadbackTextureSize.Y) :
    0 ≤ (GetBufferPosFromMousePos fp ViewportSizeXY self MousePos).X ∧
    (GetBufferPosFromMousePos fp ViewportSizeXY self MousePos).X
      ≤ self.CachedReadbackTextureSize.X - 1 ∧
    0 ≤ (GetBufferPosFromMousePos fp ViewportSizeXY self MousePos).Y ∧
    (GetBufferPosFromMousePos fp ViewportSizeXY self MousePos).Y
      ≤ self.CachedReadbackTextureSize.Y - 1 := by
  have ex : wrap32 (self.CachedReadbackTextureSize.X - 1) = self.CachedReadbackTextureSize.X - 1 :=
    wrap32_eq_self (by unfold IsInt32 at *; omega)
  have ey : wrap32 (self.CachedReadbackTextureSize.Y - 1) = self.CachedReadbackTextureSize.Y - 1 :=
    wrap32_eq_self (by unfold IsInt32 at *; omega)
  simp only [GetBufferPosFromMousePos, ex, ey]
  refine ⟨(Clamp_bounds _ _ _ (by omega)).1, (Clamp_bounds _ _ _ (by omega)).2,
    (Clamp_bounds _ _ _ (by omega)).1, (Clamp_bounds _ _ _ (by omega)).2⟩

/-- C1. Bounds clamp: when the cached downsampled size has width and height at least 1,
`GetBufferPosFromMousePos` returns `(x, y)` with `0 ≤ x ≤ width - 1` and
`0 ≤ y ≤ height - 1`.  This holds for every screen point, viewport size and coordinate
scale and for every `float` arithmetic, so in particular for screen points whose
normalized coordinates lie in `[0, 1]`. -/
theorem GetBufferPosFromMousePos_within_buffer {F : Type} (fp : FloatOps F)
    (ViewportSizeXY : FIntPoint) (self : ADepthReader F) (MousePos : FIntPoint)
    (hw : 1 ≤ self.CachedReadbackTextureSize.X) (hw32 : IsInt32 self.CachedReadbackTextureSize.X)
    (hh : 1 ≤ self.CachedReadbackTextureSize.Y) (hh32 : IsInt32 self.CachedReadbackTextureSize.Y) :
    0 ≤ (GetBufferPosFromMousePos fp ViewportSizeXY self MousePos).X ∧
    (GetBufferPosFromMousePos fp ViewportSizeXY self MousePos).X
      ≤ self.CachedReadbackTextureSize.X - 1 ∧
    0 ≤ (GetBufferPosFromMousePos fp ViewportSizeXY self MousePos).Y ∧
    (GetBufferPosFromMousePos fp ViewportSizeXY self MousePos).Y
      ≤ self.CachedReadbackTextureSize.Y - 1 :=
  GetBufferPosFromMousePos_bounds fp ViewportSizeXY self MousePos hw hw32 hh hh32

theorem GetBufferPosFromMousePos_within_buffer_witness :
    0 ≤ (GetBufferPosFromMousePos binary32 ⟨800, 600⟩ demoObject ⟨400, 300⟩).X ∧
    (GetBufferPosFromMousePos binary32 ⟨800, 600⟩ demoObject ⟨400, 300⟩).X
      ≤ demoObject.CachedReadbackTextureSize.X - 1 ∧
    0 ≤ (GetBufferPosFromMousePos binary32 ⟨800, 600⟩ demoObject ⟨400, 300⟩).Y ∧
    (GetBufferPosFromMousePos binary32 ⟨800, 600⟩ demoObject ⟨400, 300⟩).Y
      ≤ demoObject.CachedReadbackTextureSize.Y - 1 :=
  GetBufferPosFromMousePos_within_buffer binary32 ⟨800, 600⟩ demoObject ⟨400, 300⟩
    (by decide) (by decide) (by decide) (by decide)

/-- In binary32, with a coordinate scale of exactly 1.0 on X and sizes below `2 ^ 24`, a
screen point whose X equals the viewport width is mapped to `width - 1` on X, whatever
its Y coordinate is. -/
theorem GetBufferPosFromMousePos_unit_scale_X (self : ADepthReader F32)
    (ViewportSizeXY MousePos : FIntPoint) (w vx : Nat)
    (hsize : self.CachedReadbackTextureSize.X = (w : Int))
    (hscale : self.CachedCoordScale.X = F32.ofInt 1)
    (hw : 1 ≤ w) (hw2 : w < 2 ^ 24) (hvx : 1 ≤ vx) (hvx2 : vx < 2 ^ 24)
    (hV : ViewportSizeXY.X = (vx : Int)) (hM : MousePos.X = (vx : Int)) :
    (GetBufferPosFromMousePos binary32 ViewportSizeXY self MousePos).X = (w : Int) - 1 := by
  have ex : wrap32 ((w : Int) - 1) = (w : Int) - 1 := wrap32_eq_self (by unfold IsInt32; omega)
  simp only [GetBufferPosFromMousePos, hsize, hscale, hV, hM, ex, binary32,
    F32.div_ofInt_self vx (by omega) hvx2, F32.toInt_scaled_unit w (by omega) hw2]
  exact (Clamp_eq_max_iff _ _ _ (by omega)).mpr (by omega)

/-- In binary32, with a coordinate scale of exactly 1.0 on Y and sizes below `2 ^ 24`, a
screen point whose Y equals the viewport height is mapped to `height - 1` on Y, whatever
its X coordinate is. -/
theorem GetBufferPosFromMousePos_unit_scale_Y (self : ADepthReader F32)
    (ViewportSizeXY MousePos : FIntPoint) (h vy : Nat)
    (hsize : self.CachedReadbackTextureSize.Y = (h : Int))
    (hscale : self.CachedCoordScale.Y = F32.ofInt 1)
    (hh : 1 ≤ h) (hh2 : h < 2 ^ 24) (hvy : 1 ≤ vy) (hvy2 : vy < 2 ^ 24)
    (hV : ViewportSizeXY.Y = (vy : Int)) (hM : MousePos.Y = (vy : Int)) :
    (GetBufferPosFromMousePos binary32 ViewportSizeXY self MousePos).Y = (h : Int) - 1 := by
  have ey : wrap32 ((h : Int) - 1) = (h : Int) - 1 := wrap32_eq_self (by unfold IsInt32; omega)
  simp only [GetBufferPosFromMousePos, hsize, hscale, hV, hM, ey, binary32,
    F32.div_ofInt_self vy (by omega) hvy2, F32.toInt_scaled_unit h (by omega) hh2]
  exact (Clamp_eq_max_iff _ _ _ (by omega)).mpr (by omega)

/-- C2, refuted as stated.  After a frame whose viewport rectangle is half the depth
buffer on both axes the cached coordinate scale is 0.5 and the cached size is 4x3; the
screen point (8, 6) of an 8x6 viewport has normalized coordinates exactly 1.0 and is
mapped to (2, 1), not to (3, 2). -/
theorem GetBufferPosFromMousePos_upper_edge_counterexample :
    binary32.div (binary32.ofInt 8) (binary32.ofInt 8) = binary32.one ∧
    binary32.div (binary32.ofInt 6) (binary32.ofInt 6) = binary32.one ∧
    halfObject.CachedReadbackTextureSize = ⟨4, 3⟩ ∧
    GetBufferPosFromMousePos binary32 ⟨8, 6⟩ halfObject ⟨8, 6⟩ = ⟨2, 1⟩ ∧
    (GetBufferPosFromMousePos binary32 ⟨8, 6⟩ halfObject ⟨8, 6⟩).X
      ≠ halfObject.CachedReadbackTextureSize.X - 1 ∧
    (GetBufferPosFromMousePos binary32 ⟨8, 6⟩ halfObject ⟨8, 6⟩).Y
      ≠ halfObject.CachedReadbackTextureSize.Y - 1 := by
  decide

/-- C2, amended.  Each axis on its own: with a cached width of at least 1, a screen point
whose normalized X coordinate is exactly 1.0 (whatever its Y coordinate) is mapped on X
to the truncated scaled coordinate `int(1.0 * width * scaleX)` limited to
`[0, width - 1]`, so it is mapped to `width - 1` exactly when that truncated value, taken
as 0 when negative, is at least `width - 1`; likewise on Y with the height, the normalized
Y coordinate and `scaleY`.  In binary32, when the cached coordinate scale of an axis is
exactly 1.0 and the sizes are below `2 ^ 24`, a screen point whose coordinate on that axis
equals the viewport size on that axis is mapped to `width - 1` (`height - 1`) there. -/
theorem GetBufferPosFromMousePos_upper_edge {F : Type} (fp : FloatOps F)
    (ViewportSizeXY : FIntPoint) (self : ADepthReader F) (MousePos : FIntPoint) :
    (1 ≤ self.CachedReadbackTextureSize.X → IsInt32 self.CachedReadbackTextureSize.X →
      fp.div (fp.ofInt MousePos.X) (fp.ofInt ViewportSizeXY.X) = fp.one →
      (GetBufferPosFromMousePos fp ViewportSizeXY self MousePos).X
          = min (max (fp.toInt (fp.mul (fp.mul fp.one (fp.ofInt self.CachedReadbackTextureSize.X))
              self.CachedCoordScale.X)) 0) (self.CachedReadbackTextureSize.X - 1) ∧
      ((GetBufferPosFromMousePos fp ViewportSizeXY self MousePos).X
          = self.CachedReadbackTextureSize.X - 1 ↔
        self.CachedReadbackTextureSize.X - 1 ≤
          max (fp.toInt (fp.mul (fp.mul fp.one (fp.ofInt self.CachedReadbackTextureSize.X))
            self.CachedCoordScale.X)) 0)) ∧
    (1 ≤ self.CachedReadbackTextureSize.Y → IsInt32 self.CachedReadbackTextureSize.Y →
      fp.div (fp.ofInt MousePos.Y) (fp.ofInt ViewportSizeXY.Y) = fp.one →
      (GetBufferPosFromMousePos fp ViewportSizeXY self MousePos).Y
          = min (max (fp.toInt (fp.mul (fp.mul fp.one (fp.ofInt self.CachedReadbackTextureSize.Y))
              self.CachedCoordScale.Y)) 0) (self.CachedReadbackTextureSize.Y - 1) ∧
      ((GetBufferPosFromMousePos fp ViewportSizeXY self MousePos).Y
          = self.CachedReadbackTextureSize.Y - 1 ↔
        self.CachedReadbackTextureSize.Y - 1 ≤
          max (fp.toInt (fp.mul (fp.mul fp.one (fp.ofInt self.CachedReadbackTextureSize.Y))
            self.CachedCoordScale.Y)) 0)) ∧
    (∀ (self32 : ADepthReader F32) (Viewport32 Mouse32 : FIntPoint) (w vx : Nat),
      self32.CachedReadbackTextureSize.X = (w : Int) →
      self32.CachedCoordScale.X = F32.ofInt 1 →
      1 ≤ w → w < 2 ^ 24 → 1 ≤ vx → vx < 2 ^ 24 →
      Viewport32.X = (vx : Int) → Mouse32.X = (vx : Int) →
      (GetBufferPosFromMousePos binary32 Viewport32 self32 Mouse32).X = (w : Int) - 1) ∧
    (∀ (self32 : ADepthReader F32) (Viewport32 Mouse32 : FIntPoint) (h vy : Nat),
      self32.CachedReadbackTextureSize.Y = (h : Int) →
      self32.CachedCoordScale.Y = F32.ofInt 1 →
      1 ≤ h → h < 2 ^ 24 → 1 ≤ vy → vy < 2 ^ 24 →
      Viewport32.Y = (vy : Int) → Mouse32.Y = (vy : Int) →
      (GetBufferPosFromMousePos binary32 Viewport32 self32 Mouse32).Y = (h : Int) - 1) := by
  refine ⟨?_, ?_, GetBufferPosFromMousePos_unit_scale_X, GetBufferPosFromMousePos_unit_scale_Y⟩
  · intro hw hw32 hX
    have ex : wrap32 (self.CachedReadbackTextureSize.X - 1)
        = self.CachedReadbackTextureSize.X - 1 :=
      wrap32_eq_self (by unfold IsInt32 at *; omega)
    simp only [GetBufferPosFromMousePos, ex, hX]
    exact ⟨Clamp_eq_min_max _ _ _ (by omega), Clamp_eq_max_iff _ _ _ (by omega)⟩
  · intro hh hh32 hY
    have ey : wrap32 (self.CachedReadbackTextureSize.Y - 1)
        = self.CachedReadbackTextureSize.Y - 1 :=
      wrap32_eq_self (by unfold IsInt32 at *; omega)
    simp only [GetBufferPosFromMousePos, ey, hY]
    exact ⟨Clamp_eq_min_max _ _ _ (by omega), Clamp_eq_max_iff _ _ _ (by omega)⟩

theorem GetBufferPosFromMousePos_upper_edge_witness :
    binary32.div (binary32.ofInt 300) (binary32.ofInt 600) ≠ binary32.one ∧
    (GetBufferPosFromMousePos binary32 ⟨800, 600⟩ demoObject ⟨800, 300⟩).X
        = demoObject.CachedReadbackTextureSize.X - 1 ∧
    binary32.div (binary32.ofInt 400) (binary32.ofInt 800) ≠ binary32.one ∧
    (GetBufferPosFromMousePos binary32 ⟨800, 600⟩ demoObject ⟨400, 600⟩).Y
        = demoObject.CachedReadbackTextureSize.Y - 1 ∧
    (GetBufferPosFromMousePos binary32 ⟨8, 6⟩ halfObject ⟨8, 3⟩).X
        = min (max 2 0) (halfObject.CachedReadbackTextureSize.X - 1) :=
  ⟨by decide,
    (((GetBufferPosFromMousePos_upper_edge binary32 ⟨800, 600⟩ demoObject ⟨800, 300⟩).1
      (by decide) (by decide) (by decide)).2).mpr (by decide),
    by decide,
    (((GetBufferPosFromMousePos_upper_edge binary32 ⟨800, 600⟩ demoObject ⟨400, 600⟩).2.1
      (by decide) (by decide) (by decide)).2).mpr (by decide),
    ((GetBufferPosFromMousePos_upper_edge binary32 ⟨8, 6⟩ halfObject ⟨8, 3⟩).1
      (by decide) (by decide) (by decide)).1⟩

/-! ## `SampleDepth` and `GetDepth` -/

theorem Tick_LastDepth {F : Type} (fp : FloatOps F) (self : ADepthReader F)
    (ReadDepth : FenceStatus) (SceneViewTransform : FVector4 F) :
    (Tick fp self ReadDepth SceneViewTransform).LastDepth = self.LastDepth := by
  unfold Tick UpdateCaptureDepthTexture
  split_ifs <;> rfl

theorem CheckDepthTexture_RenderThread_LastDepth {F : Type} (fp : FloatOps F)
    (rhi : FRHIAnswers F) (self : ADepthReader F) (DepthTexture : FIntPoint) :
    (CheckDepthTexture_RenderThread fp rhi self DepthTexture).LastDepth = self.LastDepth := by
  unfold CheckDepthTexture_RenderThread CheckDepthTexture_RenderThread_slot
  dsimp only
  split_ifs <;> rfl

theorem UpdateCaptureDepthTexture_RenderThread_LastDepth {F : Type} (fp : FloatOps F)
    (rhi : FRHIAnswers F) (self : ADepthReader F) (P : FPostOpaqueRenderParameters) :
    (UpdateCaptureDepthTexture_RenderThread fp rhi self P).1.LastDepth = self.LastDepth := by
  unfold UpdateCaptureDepthTexture_RenderThread
  dsimp only
  split_ifs
  · exact CheckDepthTexture_RenderThread_LastDepth fp rhi _ _
  · exact CheckDepthTexture_RenderThread_LastDepth fp rhi _ _
  · exact CheckDepthTexture_RenderThread_LastDepth fp rhi _ _

/-- Calls other than `GetDepth` leave the last-known-good value as it is. -/
theorem exec_LastDepth {F : Type} (fp : FloatOps F) (GNearClippingPlane : F)
    (calls : List (Call F)) :
    ∀ self : ADepthReader F, calls.all (fun c => !c.isGetDepth) = true →
      (exec fp GNearClippingPlane self calls).1.LastDepth = self.LastDepth := by
  induction calls with
  | nil => intro self _; rfl
  | cons c rest ih =>
    intro self h
    rw [List.all_cons, Bool.and_eq_true] at h
    have hrest := ih (step fp GNearClippingPlane self c).1 h.2
    simp only [exec]
    rw [hrest]
    cases c with
    | Tick st v => exact Tick_LastDepth fp self st v
    | RenderThread rhi P => exact UpdateCaptureDepthTexture_RenderThread_LastDepth fp rhi self P
    | GetDepth v m => simp [Call.isGetDepth] at h

/-- C3. Out-of-bounds stability: let a `SampleDepth` call succeed (its linear index is
inside the snapshot buffer) and return `V`, and let any calls other than depth queries
(ticks, render-thread invocations) follow.  A `SampleDepth(Col, Row)` whose linear index
`Col + Row * CachedAlignedReadbackDataSize.X`, the `int32` value the code computes, is
negative or not below the length of the snapshot buffer returns exactly `V` and leaves
the whole object, so the last-known-good value `V` and the snapshot buffer, unchanged. -/
theorem SampleDepth_out_of_bounds_stable {F : Type} (fp : FloatOps F) (GNearClippingPlane : F)
    (before : ADepthReader F) (Col0 Row0 : Int) (calls : List (Call F)) (Col Row : Int)
    (_hin : 0 ≤ linearIndex before Col0 Row0 ∧
      linearIndex before Col0 Row0 < (before.CurrentAlignedReadbackData.length : Int))
    (hcalls : calls.all (fun c => !c.isGetDepth) = true)
    (hlen : (exec fp GNearClippingPlane
      (SampleDepth fp GNearClippingPlane before Col0 Row0).2 calls).1.CurrentAlignedReadbackData.length
        < 2 ^ 31)
    (hout : ¬ (0 ≤ linearIndex (exec fp GNearClippingPlane
          (SampleDepth fp GNearClippingPlane before Col0 Row0).2 calls).1 Col Row ∧
        linearIndex (exec fp GNearClippingPlane
          (SampleDepth fp GNearClippingPlane before Col0 Row0).2 calls).1 Col Row
          < ((exec fp GNearClippingPlane (SampleDepth fp GNearClippingPlane before Col0 Row0).2
              calls).1.CurrentAlignedReadbackData.length : Int))) :
    SampleDepth fp GNearClippingPlane
        (exec fp GNearClippingPlane (SampleDepth fp GNearClippingPlane before Col0 Row0).2 calls).1
        Col Row
      = ((SampleDepth fp GNearClippingPlane before Col0 Row0).1,
          (exec fp GNearClippingPlane (SampleDepth fp GNearClippingPlane before Col0 Row0).2
            calls).1) := by
  have hlast : (SampleDepth fp GNearClippingPlane before Col0 Row0).2.LastDepth
      = (SampleDepth fp GNearClippingPlane before Col0 Row0).1 := by
    unfold SampleDepth
    dsimp only
    split_ifs <;> rfl
  rw [SampleDepth_outside fp GNearClippingPlane _ Col Row hlen hout,
    exec_LastDepth fp GNearClippingPlane calls _ hcalls, hlast]

theorem SampleDepth_out_of_bounds_stable_witness :
    SampleDepth binary32 demoNear
        (exec binary32 demoNear (SampleDepth binary32 demoNear demoObject 2 1).2
          [Call.RenderThread demoAnswers demoFrame, Call.Tick ⟨0, false⟩ demoView]).1
        (-1) 0
      = ((SampleDepth binary32 demoNear demoObject 2 1).1,
          (exec binary32 demoNear (SampleDepth binary32 demoNear demoObject 2 1).2
            [Call.RenderThread demoAnswers demoFrame, Call.Tick ⟨0, false⟩ demoView]).1) :=
  SampleDepth_out_of_bounds_stable binary32 demoNear demoObject 2 1
    [Call.RenderThread demoAnswers demoFrame, Call.Tick ⟨0, false⟩ demoView] (-1) 0
    (by decide) (by decide) (by decide) (by decide)

/-- C4. In-bounds sampling: when the linear index `i = Col + Row * cachedAlignedWidth` is
within the length of the snapshot buffer, `SampleDepth(Col, Row)` returns
`(z * a + b + 1 / (z * c - d)) - GNearClippingPlane` for the value `z` stored in cell `i`
and the transform coefficients `[a, b, c, d]`, and the last-known-good value after the
call is the returned value (nothing else changes). -/
theorem SampleDepth_in_bounds {F : Type} (fp : FloatOps F) (GNearClippingPlane : F)
    (self : ADepthReader F) (Col Row : Int)
    (hlen : self.CurrentAlignedReadbackData.length < 2 ^ 31)
    (h0 : 0 ≤ Col + Row * self.CachedAlignedReadbackDataSize.X)
    (h1 : Col + Row * self.CachedAlignedReadbackDataSize.X
      < (self.CurrentAlignedReadbackData.length : Int)) :
    ∃ px : FDepthPixel F,
      self.CurrentAlignedReadbackData[(Col + Row * self.CachedAlignedReadbackDataSize.X).toNat]?
        = some px ∧
      (SampleDepth fp GNearClippingPlane self Col Row).1 =
        fp.sub
          (fp.add
            (fp.add (fp.mul px.Depth self.InvDeviceZToWorldZTransform.X)
              self.InvDeviceZToWorldZTransform.Y)
            (fp.div fp.one
              (fp.sub (fp.mul px.Depth self.InvDeviceZToWorldZTransform.Z)
                self.InvDeviceZToWorldZTransform.W)))
          GNearClippingPlane ∧
      (SampleDepth fp GNearClippingPlane self Col Row).2 =
        { self with LastDepth := (SampleDepth fp GNearClippingPlane self Col Row).1 } := by
  have hfit : IsInt32 (Col + Row * self.CachedAlignedReadbackDataSize.X) := by
    unfold IsInt32
    omega
  have hidx := linearIndex_eq self Col Row hfit
  obtain ⟨px, hpx, hs⟩ := SampleDepth_inside fp GNearClippingPlane self Col Row hlen
    (by rw [hidx]; exact h0) (by rw [hidx]; exact h1)
  rw [hidx] at hpx
  exact ⟨px, hpx, by rw [hs]; rfl, by rw [hs]⟩

theorem SampleDepth_in_bounds_witness :
    ∃ px : FDepthPixel F32,
      demoObject.CurrentAlignedReadbackData[((2 : Int) + 1 *
        demoObject.CachedAlignedReadbackDataSize.X).toNat]? = some px ∧
      (SampleDepth binary32 demoNear demoObject 2 1).1 =
        binary32.sub
          (binary32.add
            (binary32.add (binary32.mul px.Depth demoObject.InvDeviceZToWorldZTransform.X)
              demoObject.InvDeviceZToWorldZTransform.Y)
            (binary32.div binary32.one
              (binary32.sub (binary32.mul px.Depth demoObject.InvDeviceZToWorldZTransform.Z)
                demoObject.InvDeviceZToWorldZTransform.W)))
          demoNear ∧
      (SampleDepth binary32 demoNear demoObject 2 1).2 =
        { demoObject with LastDepth := (SampleDepth binary32 demoNear demoObject 2 1).1 } :=
  SampleDepth_in_bounds binary32 demoNear demoObject 2 1 (by decide) (by decide) (by decide)

/-- C10. `GetDepth` does not fall back on a consistent snapshot: when the cached
downsampled size `(w, h)` satisfies `1 ≤ w ≤ cachedAlignedWidth` and
`1 ≤ h ≤ cachedAlignedHeight` and the snapshot buffer has length
`cachedAlignedWidth * cachedAlignedHeight` (an `int32`, as `TArray::Num()` is), then for
every screen point, viewport size and coordinate scale the coordinate `(col, row)` of
`GetBufferPosFromMousePos` has a linear index `col + row * cachedAlignedWidth` that is
non-negative and below the buffer length, and `GetDepth` returns the converted value of
that cell and stores it as the last-known-good value. -/
theorem GetDepth_in_bounds {F : Type} (fp : FloatOps F) (GNearClippingPlane : F)
    (ViewportSizeXY : FIntPoint) (self : ADepthReader F) (MousePos : FIntPoint)
    (hw : 1 ≤ self.CachedReadbackTextureSize.X)
    (hwa : self.CachedReadbackTextureSize.X ≤ self.CachedAlignedReadbackDataSize.X)
    (hh : 1 ≤ self.CachedReadbackTextureSize.Y)
    (hha : self.CachedReadbackTextureSize.Y ≤ self.CachedAlignedReadbackDataSize.Y)
    (hnum : (self.CurrentAlignedReadbackData.length : Int)
      = self.CachedAlignedReadbackDataSize.X * self.CachedAlignedReadbackDataSize.Y)
    (hlen : self.CurrentAlignedReadbackData.length < 2 ^ 31) :
    0 ≤ (GetBufferPosFromMousePos fp ViewportSizeXY self MousePos).X
        + (GetBufferPosFromMousePos fp ViewportSizeXY self MousePos).Y
          * self.CachedAlignedReadbackDataSize.X ∧
    (GetBufferPosFromMousePos fp ViewportSizeXY self MousePos).X
        + (GetBufferPosFromMousePos fp ViewportSizeXY self MousePos).Y
          * self.CachedAlignedReadbackDataSize.X
      < (self.CurrentAlignedReadbackData.length : Int) ∧
    ∃ px : FDepthPixel F,
      self.CurrentAlignedReadbackData[((GetBufferPosFromMousePos fp ViewportSizeXY self MousePos).X
        + (GetBufferPosFromMousePos fp ViewportSizeXY self MousePos).Y
          * self.CachedAlignedReadbackDataSize.X).toNat]? = some px ∧
      GetDepth fp GNearClippingPlane ViewportSizeXY self MousePos =
        (ConvertDeviceZToDepth fp GNearClippingPlane self px.Depth,
          { self with LastDepth := ConvertDeviceZToDepth fp GNearClippingPlane self px.Depth }) := by
  have haw : 1 ≤ self.CachedAlignedReadbackDataSize.X := le_trans hw hwa
  have hah : 1 ≤ self.CachedAlignedReadbackDataSize.Y := le_trans hh hha
  have hlen2 : (self.CurrentAlignedReadbackData.length : Int) < 2 ^ 31 := by exact_mod_cast hlen
  have hawle : self.CachedAlignedReadbackDataSize.X
      ≤ self.CachedAlignedReadbackDataSize.X * self.CachedAlignedReadbackDataSize.Y :=
    le_mul_of_one_le_right (by omega) hah
  have hahle : self.CachedAlignedReadbackDataSize.Y
      ≤ self.CachedAlignedReadbackDataSize.X * self.CachedAlignedReadbackDataSize.Y :=
    le_mul_of_one_le_left (by omega) haw
  obtain ⟨hx0, hx1, hy0, hy1⟩ :=
    GetBufferPosFromMousePos_bounds fp ViewportSizeXY self MousePos hw
      (by unfold IsInt32; omega) hh (by unfold IsInt32; omega)
  generalize hc : GetBufferPosFromMousePos fp ViewportSizeXY self MousePos = c at *
  have hrow : c.Y * self.CachedAlignedReadbackDataSize.X
      ≤ (self.CachedAlignedReadbackDataSize.Y - 1) * self.CachedAlignedReadbackDataSize.X :=
    mul_le_mul_of_nonneg_right (by omega) (by omega)
  have hrow0 : 0 ≤ c.Y * self.CachedAlignedReadbackDataSize.X := mul_nonneg hy0 (by omega)
  have hexp : (self.CachedAlignedReadbackDataSize.Y - 1) * self.CachedAlignedReadbackDataSize.X
      = self.CachedAlignedReadbackDataSize.X * self.CachedAlignedReadbackDataSize.Y
        - self.CachedAlignedReadbackDataSize.X := by ring
  have h0 : 0 ≤ c.X + c.Y * self.CachedAlignedReadbackDataSize.X := by omega
  have h1 : c.X + c.Y * self.CachedAlignedReadbackDataSize.X
      < (self.CurrentAlignedReadbackData.length : Int) := by omega
  have hfit : IsInt32 (c.X + c.Y * self.CachedAlignedReadbackDataSize.X) := by
    unfold IsInt32
    omega
  have hidx := linearIndex_eq self c.X c.Y hfit
  obtain ⟨px, hpx, hs⟩ := SampleDepth_inside fp GNearClippingPlane self c.X c.Y hlen
    (by rw [hidx]; exact h0) (by rw [hidx]; exact h1)
  rw [hidx] at hpx
  refine ⟨h0, h1, px, hpx, ?_⟩
  unfold GetDepth
  rw [hc]
  exact hs

theorem GetDepth_in_bounds_witness :
    0 ≤ (GetBufferPosFromMousePos binary32 ⟨800, 600⟩ demoObject ⟨800, 600⟩).X
        + (GetBufferPosFromMousePos binary32 ⟨800, 600⟩ demoObject ⟨800, 600⟩).Y
          * demoObject.CachedAlignedReadbackDataSize.X ∧
    (GetBufferPosFromMousePos binary32 ⟨800, 600⟩ demoObject ⟨800, 600⟩).X
        + (GetBufferPosFromMousePos binary32 ⟨800, 600⟩ demoObject ⟨800, 600⟩).Y
          * demoObject.CachedAlignedReadbackDataSize.X
      < (demoObject.CurrentAlignedReadbackData.length : Int) ∧
    ∃ px : FDepthPixel F32,
      demoObject.CurrentAlignedReadbackData[((GetBufferPosFromMousePos binary32 ⟨800, 600⟩
          demoObject ⟨800, 600⟩).X
        + (GetBufferPosFromMousePos binary32 ⟨800, 600⟩ demoObject ⟨800, 600⟩).Y
          * demoObject.CachedAlignedReadbackDataSize.X).toNat]? = some px ∧
      GetDepth binary32 demoNear ⟨800, 600⟩ demoObject ⟨800, 600⟩ =
        (ConvertDeviceZToDepth binary32 demoNear demoObject px.Depth,
          { demoObject with
            LastDepth := ConvertDeviceZToDepth binary32 demoNear demoObject px.Depth }) :=
  GetDepth_in_bounds binary32 demoNear ⟨800, 600⟩ demoObject ⟨800, 600⟩
    (by decide) (by decide) (by decide) (by decide) (by decide) (by decide)

/-! ## `UpdateCaptureDepthTexture` -/

/-- C5. Gated publish is a no-op: when the read-depth fence exists, has a non-zero number
of pending write commands and polls false, `UpdateCaptureDepthTexture` returns the object
unchanged; so the snapshot buffer, the cached coordinate scale, the cached downsampled
size, the cached aligned size and the round-robin slot index are all unchanged. -/
theorem UpdateCaptureDepthTexture_gated {F : Type} (fp : FloatOps F) (self : ADepthReader F)
    (ReadDepth : FenceStatus) (hfence : self.ReadDepthFence = true)
    (hpending : ReadDepth.NumPendingWriteCommands ≠ 0) (hpoll : ReadDepth.Poll = false) :
    UpdateCaptureDepthTexture fp self ReadDepth = self := by
  unfold UpdateCaptureDepthTexture FenceStatus.Complete
  simp [hfence, hpending, hpoll]

theorem UpdateCaptureDepthTexture_gated_witness :
    UpdateCaptureDepthTexture binary32 demoObject ⟨1, false⟩ = demoObject :=
  UpdateCaptureDepthTexture_gated binary32 demoObject ⟨1, false⟩ (by decide) (by decide)
    (by decide)

theorem cmod_succ_of_bit (i : Int) (h : i = 0 ∨ i = 1) :
    cmod (wrap32 (i + 1)) 2 = (i + 1) % 2 ∧
      (cmod (wrap32 (i + 1)) 2 = 0 ∨ cmod (wrap32 (i + 1)) 2 = 1) := by
  rcases h with h | h <;> subst h <;> decide

/-- An open-gate handoff copies the slot at the current index into the snapshot and
advances the index. -/
theorem UpdateCaptureDepthTexture_open {F : Type} (fp : FloatOps F) (self : ADepthReader F)
    (ReadDepth : FenceStatus) (hgate : (!self.ReadDepthFence || ReadDepth.Complete) = true) :
    (UpdateCaptureDepthTexture fp self ReadDepth).CurrentAlignedReadbackData
        = self.AlignedReadbackData.get self.CurrentRenderIndex ∧
    (UpdateCaptureDepthTexture fp self ReadDepth).CurrentRenderIndex
        = cmod (wrap32 (self.CurrentRenderIndex + 1)) 2 := by
  unfold UpdateCaptureDepthTexture
  rw [if_pos hgate]
  exact ⟨rfl, rfl⟩

theorem UpdateCaptureDepthTexture_closed {F : Type} (fp : FloatOps F) (self : ADepthReader F)
    (ReadDepth : FenceStatus) (hgate : ¬ (!self.ReadDepthFence || ReadDepth.Complete) = true) :
    UpdateCaptureDepthTexture fp self ReadDepth = self := by
  unfold UpdateCaptureDepthTexture
  rw [if_neg hgate]

theorem CheckDepthTexture_RenderThread_index {F : Type} (fp : FloatOps F)
    (rhi : FRHIAnswers F) (self : ADepthReader F) (DepthTexture : FIntPoint) :
    (CheckDepthTexture_RenderThread fp rhi self DepthTexture).CurrentRenderIndex
        = self.CurrentRenderIndex ∧
    (CheckDepthTexture_RenderThread fp rhi self DepthTexture).bInitialized
        = self.bInitialized := by
  unfold CheckDepthTexture_RenderThread CheckDepthTexture_RenderThread_slot
  dsimp only
  split_ifs <;> exact ⟨rfl, rfl⟩

/-- The render thread never writes the round-robin index. -/
theorem UpdateCaptureDepthTexture_RenderThread_index {F : Type} (fp : FloatOps F)
    (rhi : FRHIAnswers F) (self : ADepthReader F) (P : FPostOpaqueRenderParameters) :
    (UpdateCaptureDepthTexture_RenderThread fp rhi self P).1.CurrentRenderIndex
      = self.CurrentRenderIndex := by
  unfold UpdateCaptureDepthTexture_RenderThread
  dsimp only
  split_ifs
  · exact (CheckDepthTexture_RenderThread_index fp rhi _ _).1
  · exact (CheckDepthTexture_RenderThread_index fp rhi _ _).1
  · exact (CheckDepthTexture_RenderThread_index fp rhi _ _).1

theorem GetDepth_index {F : Type} (fp : FloatOps F) (GNearClippingPlane : F)
    (ViewportSizeXY : FIntPoint) (self : ADepthReader F) (MousePos : FIntPoint) :
    (GetDepth fp GNearClippingPlane ViewportSizeXY self MousePos).2.CurrentRenderIndex
      = self.CurrentRenderIndex := by
  unfold GetDepth SampleDepth
  dsimp only
  split_ifs <;> rfl

theorem publishedSlots_append (a b : List Event) :
    publishedSlots (a ++ b) = publishedSlots a ++ publishedSlots b := by
  induction a with
  | nil => rfl
  | cons e rest ih =>
    cases e with
    | Publish i => simp [publishedSlots, ih]
    | Render c => simp [publishedSlots, ih]

theorem publishedSlots_Render (cs : List RenderCall) :
    publishedSlots (cs.map Event.Render) = [] := by
  induction cs with
  | nil => rfl
  | cons c rest ih => simp [publishedSlots, ih]

/-- One call either publishes the slot at the current index and advances the index, or
publishes nothing and keeps the index. -/
theorem step_publishedSlots {F : Type} (fp : FloatOps F) (GNearClippingPlane : F)
    (self : ADepthReader F) (c : Call F) :
    (publishedSlots (step fp GNearClippingPlane self c).2 = [self.CurrentRenderIndex] ∧
      (step fp GNearClippingPlane self c).1.CurrentRenderIndex
        = cmod (wrap32 (self.CurrentRenderIndex + 1)) 2) ∨
    (publishedSlots (step fp GNearClippingPlane self c).2 = [] ∧
      (step fp GNearClippingPlane self c).1.CurrentRenderIndex = self.CurrentRenderIndex) := by
  cases c with
  | Tick st v =>
    by_cases hgate : (!self.ReadDepthFence || st.Complete) = true
    · left
      simp only [step, if_pos hgate, publishedSlots, Tick]
      exact ⟨trivial, (UpdateCaptureDepthTexture_open fp self st hgate).2⟩
    · right
      simp only [step, if_neg hgate, publishedSlots, Tick]
      rw [UpdateCaptureDepthTexture_closed fp self st hgate]
      exact ⟨trivial, rfl⟩
  | RenderThread rhi P =>
    right
    simp only [step]
    exact ⟨publishedSlots_Render _, UpdateCaptureDepthTexture_RenderThread_index fp rhi self P⟩
  | GetDepth v m =>
    right
    simp only [step, publishedSlots]
    exact ⟨trivial, GetDepth_index fp GNearClippingPlane v self m⟩

/-- From an index that is 0 or 1, the `k`-th published slot is `(index + k) mod 2`, and the
index stays 0 or 1. -/
theorem exec_publishedSlots {F : Type} (fp : FloatOps F) (GNearClippingPlane : F)
    (calls : List (Call F)) :
    ∀ self : ADepthReader F, (self.CurrentRenderIndex = 0 ∨ self.CurrentRenderIndex = 1) →
      (∀ k : Nat, k < (publishedSlots (exec fp GNearClippingPlane self calls).2).length →
        (publishedSlots (exec fp GNearClippingPlane self calls).2)[k]?
          = some ((self.CurrentRenderIndex + (k : Int)) % 2)) ∧
      ((exec fp GNearClippingPlane self calls).1.CurrentRenderIndex = 0 ∨
        (exec fp GNearClippingPlane self calls).1.CurrentRenderIndex = 1) := by
  induction calls with
  | nil =>
    intro self h
    refine ⟨?_, h⟩
    intro k hk
    simp [exec, publishedSlots] at hk
  | cons c rest ih =>
    intro self h
    simp only [exec, publishedSlots_append]
    rcases step_publishedSlots fp GNearClippingPlane self c with ⟨hev, hidx⟩ | ⟨hev, hidx⟩
    · have hbit := cmod_succ_of_bit self.CurrentRenderIndex h
      have hnext := ih (step fp GNearClippingPlane self c).1 (by rw [hidx]; exact hbit.2)
      refine ⟨?_, hnext.2⟩
      intro k hk
      rw [hev] at hk ⊢
      cases k with
      | zero =>
        simp only [List.singleton_append, List.getElem?_cons_zero]
        rcases h with h | h <;> rw [h] <;> rfl
      | succ j =>
        simp only [List.singleton_append, List.getElem?_cons_succ, List.length_cons] at hk ⊢
        rw [hnext.1 j (by omega), hidx, hbit.1]
        congr 1
        push_cast
        omega
    · have hnext := ih (step fp GNearClippingPlane self c).1 (by rw [hidx]; exact h)
      refine ⟨?_, hnext.2⟩
      intro k hk
      rw [hev] at hk ⊢
      simp only [List.nil_append] at hk ⊢
      rw [hnext.1 k hk, hidx]

/-- C6. Round-robin invariant: starting from slot index 0, in every run of calls (ticks
with an open or a closed gate, render-thread invocations and depth queries in any
order) the slots used by the consecutive open-gate publishes are `0, 1, 0, 1, ...`: the
`k`-th of them (counted from 0) uses slot `k mod 2`.  The index is 0 or 1 after the run,
and an open-gate publish copies the slot at the current index into the snapshot and sets
the index to `(index + 1) mod 2`. -/
theorem round_robin {F : Type} (fp : FloatOps F) (GNearClippingPlane : F)
    (self : ADepthReader F) (calls : List (Call F)) (h0 : self.CurrentRenderIndex = 0) :
    (∀ k : Nat, k < (publishedSlots (exec fp GNearClippingPlane self calls).2).length →
      (publishedSlots (exec fp GNearClippingPlane self calls).2)[k]?
        = some (((k % 2 : Nat) : Int))) ∧
    ((exec fp GNearClippingPlane self calls).1.CurrentRenderIndex = 0 ∨
      (exec fp GNearClippingPlane self calls).1.CurrentRenderIndex = 1) ∧
    (∀ ReadDepth : FenceStatus,
      (!(exec fp GNearClippingPlane self calls).1.ReadDepthFence || ReadDepth.Complete) = true →
      (UpdateCaptureDepthTexture fp (exec fp GNearClippingPlane self calls).1
          ReadDepth).CurrentAlignedReadbackData
        = (exec fp GNearClippingPlane self calls).1.AlignedReadbackData.get
            (exec fp GNearClippingPlane self calls).1.CurrentRenderIndex ∧
      (UpdateCaptureDepthTexture fp (exec fp GNearClippingPlane self calls).1
          ReadDepth).CurrentRenderIndex
        = ((exec fp GNearClippingPlane self calls).1.CurrentRenderIndex + 1) % 2) := by
  have h := exec_publishedSlots fp GNearClippingPlane calls self (Or.inl h0)
  refine ⟨?_, h.2, ?_⟩
  · intro k hk
    rw [h.1 k hk, h0]
    congr 1
    push_cast
    omega
  · intro st hgate
    have ho := UpdateCaptureDepthTexture_open fp _ st hgate
    exact ⟨ho.1, by rw [ho.2]; exact (cmod_succ_of_bit _ h.2).1⟩

theorem round_robin_witness :
    publishedSlots (exec binary32 demoNear initial demoCalls).2 = [0, 1, 0] ∧
    (publishedSlots (exec binary32 demoNear initial demoCalls).2)[2]? = some (((2 % 2 : Nat) : Int)) ∧
    ((exec binary32 demoNear initial demoCalls).1.CurrentRenderIndex = 0 ∨
      (exec binary32 demoNear initial demoCalls).1.CurrentRenderIndex = 1) :=
  ⟨by decide, (round_robin binary32 demoNear initial demoCalls (by decide)).1 2 (by decide),
    (round_robin binary32 demoNear initial demoCalls (by decide)).2.1⟩

/-! ## `UpdateCaptureDepthTexture_RenderThread` -/

/-- The steps of one render-thread invocation, by the three branches of
DepthReader.cpp:203-212. -/
theorem UpdateCaptureDepthTexture_RenderThread_calls {F : Type} (fp : FloatOps F)
    (rhi : FRHIAnswers F) (self : ADepthReader F) (P : FPostOpaqueRenderParameters) :
    (UpdateCaptureDepthTexture_RenderThread fp rhi self P).2 =
      if self.bInitialized = false then
        [RenderCall.CopyDepthToResolve_RenderThread P.DepthTexture self.CurrentRenderIndex]
      else if rhi.CopyResolve.Complete = true then
        [RenderCall.ReadDepthTexture_RenderThread self.CurrentRenderIndex,
         RenderCall.CopyDepthToResolve_RenderThread P.DepthTexture self.CurrentRenderIndex]
      else [] := by
  have hb := (CheckDepthTexture_RenderThread_index fp rhi
    { self with EffectiveSize := P.ViewportRect } P.DepthTexture).2
  unfold UpdateCaptureDepthTexture_RenderThread
  dsimp only at hb ⊢
  rw [hb]
  cases self.bInitialized <;> cases rhi.CopyResolve.Complete <;> rfl

theorem UpdateCaptureDepthTexture_RenderThread_bInitialized {F : Type} (fp : FloatOps F)
    (rhi : FRHIAnswers F) (self : ADepthReader F) (P : FPostOpaqueRenderParameters) :
    (UpdateCaptureDepthTexture_RenderThread fp rhi self P).1.bInitialized = true := by
  have hb := (CheckDepthTexture_RenderThread_index fp rhi
    { self with EffectiveSize := P.ViewportRect } P.DepthTexture).2
  unfold UpdateCaptureDepthTexture_RenderThread
  dsimp only at hb ⊢
  split_ifs with h1 h2
  · rfl
  · simpa [ReadDepthTexture_RenderThread] using h1
  · simpa using h1

/-- C7, refuted as stated.  `demoObject` is initialised; in an invocation in which the
copy-resolve fence has one pending write and polls false no step is called at all, so
the resample+copy step is not issued for the current slot. -/
theorem stalled_copy_counterexample :
    demoObject.bInitialized = true ∧
    stalledAnswers.CopyResolve.NumPendingWriteCommands ≠ 0 ∧
    stalledAnswers.CopyResolve.Poll = false ∧
    (renderFrames binary32 demoObject [(stalledAnswers, demoFrame)]).2 = [[]] ∧
    RenderCall.CopyDepthToResolve_RenderThread demoFrame.DepthTexture
        demoObject.CurrentRenderIndex
      ∉ (UpdateCaptureDepthTexture_RenderThread binary32 stalledAnswers demoObject demoFrame).2 := by
  decide

/-- C7, amended.  For every K: if after initialisation the copy-resolve fence reports a
non-zero number of pending writes and polls false in each of K consecutive invocations of
`UpdateCaptureDepthTexture_RenderThread`, then each of those K invocations calls neither
the readback step nor the resample+copy step, and the object stays initialised. -/
theorem stalled_frames_skip {F : Type} (fp : FloatOps F)
    (frames : List (FRHIAnswers F × FPostOpaqueRenderParameters)) :
    ∀ self : ADepthReader F, self.bInitialized = true →
      (∀ f ∈ frames, f.1.CopyResolve.NumPendingWriteCommands ≠ 0 ∧ f.1.CopyResolve.Poll = false) →
      (renderFrames fp self frames).2 = List.replicate frames.length [] ∧
      (renderFrames fp self frames).1.bInitialized = true := by
  induction frames with
  | nil => intro self hinit _; exact ⟨rfl, hinit⟩
  | cons f rest ih =>
    intro self hinit hstall
    obtain ⟨rhi, P⟩ := f
    have hf : rhi.CopyResolve.NumPendingWriteCommands ≠ 0 ∧ rhi.CopyResolve.Poll = false :=
      hstall (rhi, P) (List.mem_cons_self _ _)
    have hcomplete : rhi.CopyResolve.Complete = false := by
      unfold FenceStatus.Complete
      simp [hf.1, hf.2]
    have hcalls := UpdateCaptureDepthTexture_RenderThread_calls fp rhi self P
    rw [hinit, hcomplete] at hcalls
    have hrest := ih (UpdateCaptureDepthTexture_RenderThread fp rhi self P).1
      (UpdateCaptureDepthTexture_RenderThread_bInitialized fp rhi self P)
      (fun g hg => hstall g (List.mem_cons_of_mem _ hg))
    simp only [renderFrames, List.length_cons, List.replicate_succ]
    exact ⟨by rw [hcalls, hrest.1]; rfl, hrest.2⟩

theorem stalled_frames_skip_witness :
    (renderFrames binary32 demoObject
        [(stalledAnswers, demoFrame), (stalledAnswers, halfFrame), (stalledAnswers, demoFrame)]).2
      = List.replicate 3 [] ∧
    (renderFrames binary32 demoObject
        [(stalledAnswers, demoFrame), (stalledAnswers, halfFrame),
          (stalledAnswers, demoFrame)]).1.bInitialized = true :=
  stalled_frames_skip binary32
    [(stalledAnswers, demoFrame), (stalledAnswers, halfFrame), (stalledAnswers, demoFrame)]
    demoObject (by decide) (by decide)

/-- C9, refuted as stated.  `demoObject` is initialised and its round-robin index is 1; in
an invocation in which the copy-resolve fence is complete the readback step is called
with slot 1 and the resample+copy step of the same invocation is called with slot 1. -/
theorem read_and_copy_slot_counterexample :
    demoObject.bInitialized = true ∧
    demoAnswers.CopyResolve.Complete = true ∧
    (UpdateCaptureDepthTexture_RenderThread binary32 demoAnswers demoObject demoFrame).2 =
      [RenderCall.ReadDepthTexture_RenderThread 1,
       RenderCall.CopyDepthToResolve_RenderThread ⟨16, 12⟩ 1] ∧
    ¬ (∀ i j : Int, ∀ d : FIntPoint,
        RenderCall.ReadDepthTexture_RenderThread i ∈
          (UpdateCaptureDepthTexture_RenderThread binary32 demoAnswers demoObject demoFrame).2 →
        RenderCall.CopyDepthToResolve_RenderThread d j ∈
          (UpdateCaptureDepthTexture_RenderThread binary32 demoAnswers demoObject demoFrame).2 →
        i ≠ j) := by
  refine ⟨by decide, by decide, by decide, ?_⟩
  intro h
  exact h 1 1 ⟨16, 12⟩ (by decide) (by decide) rfl

/-- C9, amended.  In every invocation of `UpdateCaptureDepthTexture_RenderThread` in which
the readback step runs, the invocation calls exactly the readback step and then the
resample+copy step, both with the same slot index, the value of `CurrentRenderIndex`
recorded at the start of the invocation: the slot that is read back is the slot the copy
of the same invocation writes into. -/
theorem read_and_copy_same_slot {F : Type} (fp : FloatOps F) (rhi : FRHIAnswers F)
    (self : ADepthReader F) (P : FPostOpaqueRenderParameters) (i : Int)
    (hread : RenderCall.ReadDepthTexture_RenderThread i ∈
      (UpdateCaptureDepthTexture_RenderThread fp rhi self P).2) :
    i = self.CurrentRenderIndex ∧
    (UpdateCaptureDepthTexture_RenderThread fp rhi self P).2 =
      [RenderCall.ReadDepthTexture_RenderThread i,
       RenderCall.CopyDepthToResolve_RenderThread P.DepthTexture i] ∧
    (∀ (d : FIntPoint) (j : Int),
      RenderCall.CopyDepthToResolve_RenderThread d j ∈
        (UpdateCaptureDepthTexture_RenderThread fp rhi self P).2 → j = i) := by
  rw [UpdateCaptureDepthTexture_RenderThread_calls] at hread ⊢
  split_ifs at hread ⊢ with h1 h2
  · simp at hread
  · have hi : i = self.CurrentRenderIndex := by simpa using hread
    subst hi
    refine ⟨rfl, rfl, ?_⟩
    intro d j hj
    simp at hj
    exact hj.2
  · simp at hread

theorem read_and_copy_same_slot_witness :
    (1 : Int) = demoObject.CurrentRenderIndex ∧
    (UpdateCaptureDepthTexture_RenderThread binary32 demoAnswers demoObject demoFrame).2 =
      [RenderCall.ReadDepthTexture_RenderThread 1,
       RenderCall.CopyDepthToResolve_RenderThread demoFrame.DepthTexture 1] ∧
    (∀ (d : FIntPoint) (j : Int),
      RenderCall.CopyDepthToResolve_RenderThread d j ∈
        (UpdateCaptureDepthTexture_RenderThread binary32 demoAnswers demoObject demoFrame).2 →
      j = 1) :=
  read_and_copy_same_slot binary32 demoAnswers demoObject demoFrame 1 (by decide)

/-! ## `CheckDepthTexture_RenderThread` -/

theorem CheckDepthTexture_RenderThread_ReadbackTextureSize {F : Type} (fp : FloatOps F)
    (rhi : FRHIAnswers F) (self : ADepthReader F) (DepthTexture : FIntPoint) :
    (CheckDepthTexture_RenderThread fp rhi self DepthTexture).ReadbackTextureSize =
      ⟨fp.toInt (fp.mul (fp.ofInt DepthTexture.X) self.ResolutionFraction),
       fp.toInt (fp.mul (fp.ofInt DepthTexture.Y) self.ResolutionFraction)⟩ := by
  unfold CheckDepthTexture_RenderThread CheckDepthTexture_RenderThread_slot
  dsimp only
  split_ifs with h
  · rfl
  · exact not_not.mp h

/-- C8, refuted as stated.  The resolution fraction of a new object is 0.25; for a source
depth buffer of 1919x1080 the new `ReadbackTextureSize` is 479x270, while
`round(1919 * 0.25) = round(479.75)` is 480. -/
theorem resize_round_counterexample :
    F32.toRat initial.ResolutionFraction = some (1 / 4) ∧
    (CheckDepthTexture_RenderThread binary32 demoAnswers initial ⟨1919, 1080⟩).ReadbackTextureSize
      = ⟨479, 270⟩ ∧
    specDesiredSize 1919 (1 / 4) = 480 ∧
    (CheckDepthTexture_RenderThread binary32 demoAnswers initial ⟨1919, 1080⟩).ReadbackTextureSize.X
      ≠ specDesiredSize 1919 (1 / 4) := by
  have hfrac : F32.toRat initial.ResolutionFraction = some (1 / 4) := by
    have h : initial.ResolutionFraction = F32.fin false 8388608 (-25) := by decide
    rw [h]
    simp only [F32.toRat, F32.signed]
    norm_num
  have hspec : specDesiredSize 1919 (1 / 4) = 480 := by
    unfold specDesiredSize
    rw [round_eq, Int.floor_eq_iff]
    norm_num
  have hcode : (CheckDepthTexture_RenderThread binary32 demoAnswers initial
      ⟨1919, 1080⟩).ReadbackTextureSize = ⟨479, 270⟩ := by decide
  refine ⟨hfrac, hcode, hspec, ?_⟩
  rw [hcode, hspec]
  decide

/-- C8, amended.  For every source depth-buffer size and every resolution fraction,
`CheckDepthTexture_RenderThread` leaves `ReadbackTextureSize` equal, on each axis, to the
`float` product `float(sourceSize) * ResolutionFraction` converted to `int32`, that is
truncated toward zero (the desired size, which is stored whenever it differs from the
current one).  In binary32 with the fraction 0.25 a source axis `n < 2 ^ 24` gives the
integer quotient `n / 4`; a source of 1920x1080 gives 480x270 and a following source of
2560x1440 gives 640x360. -/
theorem resize_target {F : Type} (fp : FloatOps F) (rhi : FRHIAnswers F)
    (self : ADepthReader F) (DepthTexture : FIntPoint) :
    (CheckDepthTexture_RenderThread fp rhi self DepthTexture).ReadbackTextureSize =
      ⟨fp.toInt (fp.mul (fp.ofInt DepthTexture.X) self.ResolutionFraction),
       fp.toInt (fp.mul (fp.ofInt DepthTexture.Y) self.ResolutionFraction)⟩ ∧
    (∀ (rhi32 : FRHIAnswers F32) (self32 : ADepthReader F32) (X Y : Nat),
      self32.ResolutionFraction = F32.ofScaled 1 (-2) → X < 2 ^ 24 → Y < 2 ^ 24 →
      (CheckDepthTexture_RenderThread binary32 rhi32 self32 ⟨(X : Int), (Y : Int)⟩).ReadbackTextureSize
        = ⟨((X / 4 : Nat) : Int), ((Y / 4 : Nat) : Int)⟩) ∧
    (CheckDepthTexture_RenderThread binary32 demoAnswers initial ⟨1920, 1080⟩).ReadbackTextureSize
      = ⟨480, 270⟩ ∧
    (CheckDepthTexture_RenderThread binary32 demoAnswers
      (CheckDepthTexture_RenderThread binary32 demoAnswers initial ⟨1920, 1080⟩)
      ⟨2560, 1440⟩).ReadbackTextureSize = ⟨640, 360⟩ := by
  refine ⟨CheckDepthTexture_RenderThread_ReadbackTextureSize fp rhi self DepthTexture, ?_,
    by decide, by decide⟩
  intro rhi32 self32 X Y hfrac hX hY
  rw [CheckDepthTexture_RenderThread_ReadbackTextureSize, hfrac]
  show (⟨F32.toInt (F32.mul (F32.ofInt (X : Int)) (F32.ofScaled 1 (-2))),
    F32.toInt (F32.mul (F32.ofInt (Y : Int)) (F32.ofScaled 1 (-2)))⟩ : FIntPoint) = _
  rw [F32.toInt_mul_quarter X hX, F32.toInt_mul_quarter Y hY]

theorem resize_target_witness :
    (CheckDepthTexture_RenderThread binary32 demoAnswers initial
      ⟨((1919 : Nat) : Int), ((1080 : Nat) : Int)⟩).ReadbackTextureSize
        = ⟨((1919 / 4 : Nat) : Int), ((1080 / 4 : Nat) : Int)⟩ :=
  (resize_target binary32 demoAnswers initial ⟨1919, 1080⟩).2.1 demoAnswers initial 1919 1080
    (by decide) (by decide) (by decide)

end DepthReader
